import Mathlib

/-!
# Protonium core pipeline: a shallow embedding in Lean 4

This file embeds the data model, the tree-walking evaluator and the
recursive-descent parser of the Protonium scripting language
(`src/Lexer.cpp`, `src/Parser.cpp`, `src/Interpreter.cpp` and headers),
and proves the specification claims about them.

Numbers (`long double` in the C++ sources) are modelled as rationals `ℚ`;
the epsilon comparisons of the evaluator are explicit, so no
floating-point-specific behaviour is relied upon.  Unchecked C++ vector
accesses (`operator[]`) are modelled with `List.get?`; an out-of-bounds
access makes the embedded function return `none` ("no defined result").
Checked accesses (`.at`) throw `std::out_of_range`, which no handler of
the interpreter catches, so they are modelled with `none` as well.
-/

namespace Protonium

/-- Modelled from the spec: the numeric epsilon `1e-12` used for numeric
equality and integer-ness tests (the constant itself lives in a header
that is not part of `src/`). -/
def eps : ℚ := 1 / 1000000000000

/-- `std::fabs` on the rational model. -/
def qabs (a : ℚ) : ℚ := if a < 0 then -a else a

/-- The floor of a rational, written out on the numerator/denominator
representation so that it evaluates by plain reduction. -/
def qfloor (x : ℚ) : ℤ := x.num / (x.den : ℤ)

/-- `std::lround`: round half away from zero, as used by the evaluator for
index and loop-count computations. -/
def lround (x : ℚ) : ℤ :=
  if x < 0 then -(qfloor (-x + 1/2)) else qfloor (x + 1/2)

/-- Token kinds, the closed set from `Token.hpp` (spelled out in the spec,
§4.1); `EOFTOK` stands for the `EOF` sentinel kind. -/
inductive TokType where
  | LPAREN | RPAREN | LBRACE | RBRACE | LSQRBRKT | RSQRBRKT
  | COMMA | SEMICOLON
  | PLUS | MINUS | PRODUCT | DIVISON | EXPONENTATION | NOT
  | EQUAL | BT_EQUAL | EQ_EQUAL | NOT_EQUAL
  | GREATER | GT_EQUAL | LESS | LT_EQUAL
  | PLUS_EQUAL | MINUS_EQUAL | PROD_EQUAL | DIV_EQUAL
  | DOT_DOT
  | AND | OR | IF | ELSE | WHILE | FOR | BREAK | CONTINUE
  | FUNCTION | RETURN | IN | CLASS
  | TRUE | FALSE | NIX
  | NUMBER | STRING | IDENTIFIER
  | EOFTOK
  deriving DecidableEq, Repr

/-- Literal kinds carried by a token (spec §3). -/
inductive LitType where
  | NONE | NUM | STR | NIL | TR | FA
  deriving DecidableEq, Repr

/-- A token: kind, lexeme, 1-based line, literal kind (spec §3; the
`Token` class itself lives in `Token.hpp`, not part of `src/`). -/
structure Token where
  type : TokType
  lexeme : String
  line : Nat
  lit : LitType
  deriving DecidableEq, Repr

def eofTok : Token := ⟨.EOFTOK, "", 0, .NONE⟩

/-- The variant tag of a `Value`, together with the out-of-band
`emptyList` tag (999 in the C++ `list_t::Type`); only equality and
distinctness of tags matter to the evaluator. -/
inductive Tag where
  | nix | bool | num | str | list | callable | empty
  deriving DecidableEq, Repr

/-- Scalar literal payload of a `Literal` AST node (`Literal::m_val` can
only ever hold one of the scalar variants, since it is built from a
lexed token). -/
inductive LitVal where
  | nil
  | bool (b : Bool)
  | num (q : ℚ)
  | str (s : String)
  deriving DecidableEq, Repr

mutual
/-- Expression AST nodes (`Expressions.hpp`, as constructed by
`Parser.cpp` and consumed by `Interpreter.cpp`). `lit` stores the
precomputed literal value together with its token; `list` values inside
`Value` are heap references, see `Value` below. -/
inductive Expr where
  | lit (v : LitVal) (tok : Token)
  | variable_ (name : Token)
  | paren (e : Expr)
  | unary (op : Token) (right : Expr)
  | binary (left : Expr) (op : Token) (right : Expr)
  | logical (left : Expr) (op : Token) (right : Expr)
  | assign (name : Token) (op : Token) (val : Expr)
  | call (callee : Expr) (paren : Token) (args : List Expr)
  | lam (params : List Token) (body : List (Option Stmt))
  | listE (exprs : List Expr) (brkt : Token)
  | indexE (indexOp : Token) (list : Expr) (index : Expr)
  | rangeE (first : Expr) (step : Option Expr) (endE : Expr) (op : Token)
  | indexAssign (list : Expr) (index : Expr) (indexOp : Token) (op : Token) (val : Expr)
  | inE (name : Token) (inKw : Token) (iterable : Expr)

/-- Statement AST nodes (`Statements.hpp`).  A `none` entry in a
statement list is the `nullptr` produced by the parser's error
recovery. -/
inductive Stmt where
  | expression (e : Expr)
  | block (stmts : List (Option Stmt))
  | ifS (cond : Expr) (thenB : Option Stmt) (elseB : Option Stmt)
  | whileS (cond : Expr) (body : Option Stmt)
  | forS (init : Option Expr) (cond : Expr) (incr : Option Expr) (body : Option Stmt)
  | rangedFor (inexpr : Expr) (body : Option Stmt)
  | brk
  | cont
  | func (name : Token) (params : List Token) (body : List (Option Stmt))
  | ret (keyword : Token) (val : Option Expr)
end

/-- A user function value (`ProtoFunction`): name, parameters, body and
captured closure environment (a frame index into the environment heap).
Modelled from the spec: `ProtoFunc.hpp` is not part of `src/`; spec §3
gives `{ name, params, body, closure }`. -/
structure ProtoFn where
  name : String
  params : List Token
  body : List (Option Stmt)
  closure : Nat

/-- Callable objects: the four native built-ins and user functions.
Modelled from the spec: `ForeignFuncs.hpp` is not part of `src/`; spec
§4.4 lists `read`, `print`, `println`, `copy`. -/
inductive Callable where
  | readFn | printFn | printlnFn | copyFn
  | proto (fn : ProtoFn)

/-- Runtime values: the tagged union of spec §3.  A `list` value is a
shared reference, modelled as an index into a heap of `ListVal`s. -/
inductive Value where
  | nil
  | bool (b : Bool)
  | num (q : ℚ)
  | str (s : String)
  | list (ref : Nat)
  | callable (c : Callable)

instance : Inhabited Value := ⟨.nil⟩

/-- A list object (`list_t`): elements plus the element-type tag. -/
structure ListVal where
  elems : List Value
  type : Tag

/-- The list heap: `list_ptr` references are indices into it. -/
abbrev Lists := List ListVal

/-- `Value::index()`, extended with `Tag.empty` for the out-of-band empty
list tag. -/
def vtag : Value → Tag
  | .nil => .nix
  | .bool _ => .bool
  | .num _ => .num
  | .str _ => .str
  | .list _ => .list
  | .callable _ => .callable

def LitVal.toValue : LitVal → Value
  | .nil => .nil
  | .bool b => .bool b
  | .num q => .num q
  | .str s => .str s

/-- A runtime error: offending token and message
(`RuntimeError(Token, string)`). -/
structure RErr where
  tok : Token
  msg : String
  deriving DecidableEq, Repr

/-- `Interpreter::isNum`. -/
def isNum : Value → Bool
  | .num _ => true
  | _ => false

/-- `Interpreter::isNix`. -/
def isNix : Value → Bool
  | .nil => true
  | _ => false

/-- `Interpreter::isStr`. -/
def isStr : Value → Bool
  | .str _ => true
  | _ => false

/-- `Interpreter::isBool`. -/
def isBool : Value → Bool
  | .bool _ => true
  | _ => false

/-- `Interpreter::isCallable`. -/
def isCallable : Value → Bool
  | .callable _ => true
  | _ => false

/-- `Interpreter::isList`. -/
def isList : Value → Bool
  | .list _ => true
  | _ => false

/-- The numeric payload of a value, when it is a number
(`std::get<long double>`; `none` models the `bad_variant_access` crash). -/
def vnum : Value → Option ℚ
  | .num q => some q
  | _ => none

/-- The list reference of a value (`std::get<list_ptr>`). -/
def vlist : Value → Option Nat
  | .list r => some r
  | _ => none

/-- `Interpreter::isEqual(long double, long double)`: epsilon equality. -/
def qEqual (a b : ℚ) : Bool := qabs (a - b) < eps

/-- `Interpreter::isTrue`: truthiness. -/
def isTrue : Value → Bool
  | .nil => false
  | .bool b => b
  | .num q => if qEqual q 0 then false else true
  | _ => true

/-- `l[i]` for a signed index, as C++ `operator[]`: `none` models the
out-of-bounds access. -/
def getAtInt (l : List Value) (i : ℤ) : Option Value :=
  if i < 0 then none else l.get? i.toNat

/-- `l.at(i) = v` for a signed index: `none` models the uncaught
`std::out_of_range`. -/
def setAtInt (l : List Value) (i : ℤ) (v : Value) : Option (List Value) :=
  if i < 0 ∨ (l.length : ℤ) ≤ i then none else some (l.set i.toNat v)

/-- The per-element loop of `Interpreter::verifyIndices` over the index
list: each element must be a number that is epsilon-close to an integer,
strictly positive after rounding, and at most the target list's length. -/
def verifyLoop (listLen : Nat) (indexOp : Token) : List Value → Option (Except RErr Unit)
  | [] => some (.ok ())
  | v :: rest =>
    match vnum v with
    | none => none
    | some d =>
      if ¬ (qabs (d - (lround d : ℚ)) < eps) then
        some (.error ⟨indexOp, "Indices must be positive, non-zero integers."⟩)
      else if lround d ≤ 0 then
        some (.error ⟨indexOp, "Indices can't be negative or zero."⟩)
      else if (listLen : ℤ) < lround d then
        some (.error ⟨indexOp, "One or more of the indices is greater than the length of the list."⟩)
      else verifyLoop listLen indexOp rest

/-- `Interpreter::verifyIndices`: validates a scalar or list-of-indices
index against the target list `list`; an index list tagged `emptyList`
passes with no checks at all. -/
def verifyIndices (σ : Lists) (list : ListVal) (index : Value) (indexOp : Token) :
    Option (Except RErr Unit) :=
  if isList index then
    match (vlist index).bind σ.get? with
    | none => none
    | some listIndex =>
      if listIndex.type = .empty then some (.ok ())
      else if listIndex.type ≠ .num then
        some (.error ⟨indexOp, "The indexing list must contain numbers."⟩)
      else verifyLoop list.elems.length indexOp listIndex.elems
  else if ¬ isNum index then
    some (.error ⟨indexOp, "The index must be a list or a number."⟩)
  else
    match vnum index with
    | none => none
    | some d =>
      if ¬ (qabs (d - (lround d : ℚ)) < eps) then
        some (.error ⟨indexOp, "Indices must be positive, non-zero integers."⟩)
      else if lround d ≤ 0 then
        some (.error ⟨indexOp, "Indices can't be negative or zero."⟩)
      else if (list.elems.length : ℤ) < lround d then
        some (.error ⟨indexOp, "One or more of the indices is greater than the length of the list."⟩)
      else some (.ok ())

/-- The gather loop of `Interpreter::visit(const Index&)`:
`val.push_back(list->m_list[in-1])` for each rounded index. -/
def gatherLoop (list : ListVal) : List Value → Option (List Value)
  | [] => some []
  | v :: rest =>
    match vnum v with
    | none => none
    | some d =>
      match getAtInt list.elems (lround d - 1) with
      | none => none
      | some x => (gatherLoop list rest).map (x :: ·)

/-- `Interpreter::visit(const Index&)` on already-evaluated operand
values: the isList check, `verifyIndices`, then gather (right component:
the freshly allocated list, tagged with the source list's type) or the
scalar element read (left component).  When the index is neither list
nor number the C++ switch falls through with `m_val` still holding the
index; `verifyIndices` makes that case unreachable. -/
def indexRun (σ : Lists) (lv index : Value) (indexOp : Token) :
    Option (Except RErr (Value ⊕ ListVal)) :=
  if ¬ isList lv then
    some (.error ⟨indexOp, "The index operator can only be used on lists."⟩)
  else
    match (vlist lv).bind σ.get? with
    | none => none
    | some list =>
      match verifyIndices σ list index indexOp with
      | none => none
      | some (.error e) => some (.error e)
      | some (.ok ()) =>
        if isList index then
          match (vlist index).bind σ.get? with
          | none => none
          | some listIndex =>
            match gatherLoop list listIndex.elems with
            | none => none
            | some vals => some (.ok (.inr ⟨vals, list.type⟩))
        else if isNum index then
          match vnum index with
          | none => none
          | some d =>
            match getAtInt list.elems (lround d - 1) with
            | none => none
            | some x => some (.ok (.inl x))
        else some (.ok (.inl index))

/-- The scatter loop of `Interpreter::visit(const IndexAssign&)`:
`list->m_list.at(index - 1) = valueList->m_list.at(i)` in index order. -/
def scatterLoop (target : List Value) : List Value → List Value → Option (List Value)
  | [], _ => some target
  | iv :: irest, vs =>
    match vnum iv with
    | none => none
    | some d =>
      match vs with
      | [] => none
      | v :: vrest =>
        match setAtInt target (lround d - 1) v with
        | none => none
        | some t' => scatterLoop t' irest vrest

/-- `Interpreter::visit(const IndexAssign&)` on already-evaluated operand
values `lv` (the indexed list), `index` and `value` (the right-hand
side): the isList check, `verifyIndices`, then the two assignment
branches; returns the updated list heap.  The scalar branch compares the
new value's variant against `list->m_list[1]` — the second element, read
unchecked — and not against the list's type tag. -/
def indexAssignRun (σ : Lists) (lv index value : Value) (indexOp op : Token) :
    Option (Except RErr Lists) :=
  if ¬ isList lv then
    some (.error ⟨indexOp, "The index operator can only be used on lists."⟩)
  else
    match vlist lv with
    | none => none
    | some lref =>
      match σ.get? lref with
      | none => none
      | some list =>
        match verifyIndices σ list index indexOp with
        | none => none
        | some (.error e) => some (.error e)
        | some (.ok ()) =>
          if isList index then
            match (vlist index).bind σ.get? with
            | none => none
            | some indexList =>
              if ¬ isList value then
                some (.error ⟨op, "The value must be a list."⟩)
              else
                match (vlist value).bind σ.get? with
                | none => none
                | some valueList =>
                  if indexList.elems.length ≠ valueList.elems.length then
                    some (.error ⟨op, "The value list's length must be equal to the number of indices accessed."⟩)
                  else if indexList.type ≠ valueList.type then
                    some (.error ⟨op, "Type mismatch for list assignment."⟩)
                  else
                    match scatterLoop list.elems indexList.elems valueList.elems with
                    | none => none
                    | some newElems =>
                      some (.ok (σ.set lref { list with elems := newElems }))
          else if isNum index then
            match vnum index with
            | none => none
            | some d =>
              match list.elems.get? 1 with
              | none => none
              | some second =>
                if vtag value ≠ vtag second then
                  some (.error ⟨indexOp, "Type mismatch for list assignment."⟩)
                else
                  match setAtInt list.elems (lround d - 1) value with
                  | none => none
                  | some newElems =>
                    some (.ok (σ.set lref { list with elems := newElems }))
          else some (.ok σ)

/-- The list-building loop of `Interpreter::visit(const RangeExpr&)`:
`for (i = first; i <= end; i += step) rangeList.push_back(i)`, with
explicit fuel.  `none` means the loop has not finished within `fuel`
iterations; when the loop does not terminate this holds for every fuel. -/
def buildRange (fuel : Nat) (i step endv : ℚ) : Option (List ℚ) :=
  if i ≤ endv then
    match fuel with
    | 0 => none
    | f + 1 => (buildRange f (i + step) step endv).map (i :: ·)
  else some []

/-- The step-processing block of `Interpreter::visit(const RangeExpr&)`
(lines 484-494): the step defaults to 1; an explicit step must be a
number and not epsilon-zero. -/
def rangeStep (vs : Option Value) (op : Token) : Option (Except RErr ℚ) :=
  match vs with
  | none => some (.ok 1)
  | some v =>
    if ¬ isNum v then some (.error ⟨op, "Ranges can only contain numeric descriptors."⟩)
    else
      match vnum v with
      | none => none
      | some s =>
        if qEqual s 0 then some (.error ⟨op, "Range step cannot be 0."⟩)
        else some (.ok s)

/-- `Interpreter::visit(const RangeExpr&)` on already-evaluated operand
values: the numeric checks in source order (first, then the optional
step via `rangeStep`, then the end), then the building loop; the result
is a fresh list tagged `numList`. -/
def rangeRun (fuel : Nat) (va : Value) (vs : Option Value) (vb : Value) (op : Token) :
    Option (Except RErr ListVal) :=
  if ¬ isNum va then
    some (.error ⟨op, "Ranges can only contain numeric descriptors."⟩)
  else
    match vnum va with
    | none => none
    | some first =>
      match rangeStep vs op with
      | none => none
      | some (.error e) => some (.error e)
      | some (.ok step) =>
        if ¬ isNum vb then
          some (.error ⟨op, "Ranges can only contain numeric descriptors."⟩)
        else
          match vnum vb with
          | none => none
          | some endv =>
            match buildRange fuel first step endv with
            | none => none
            | some l => some (.ok ⟨l.map Value.num, Tag.num⟩)

/-- The element loop of `Interpreter::isEqual(Value, Value)` over two
lists of equal length. -/
def isEqualLoop (eq : Value → Value → Option Bool) : List Value → List Value → Option Bool
  | [], [] => some true
  | a :: as_, b :: bs =>
    match eq a b with
    | none => none
    | some false => some false
    | some true => isEqualLoop eq as_ bs
  | _, _ => none

/-- `Interpreter::isEqual(const Value&, const Value&)`: numbers compare
by epsilon, lists structurally through the heap (fuelled: lists can be
made cyclic through aliasing, on which the C++ recursion diverges), the
other variants by the C++ `std::variant` equality.  `list_ptr` against
`list_ptr` is always taken by the structural branch; callables are
shared pointers compared by identity, so the four native singletons
compare by constructor while equality of two user functions depends on
object identity the embedding does not track (`none`). -/
def isEqualV (σ : Lists) : Nat → Value → Value → Option Bool
  | 0, _, _ => none
  | fuel + 1, left, right =>
    match left, right with
    | .num a, .num b => some (qEqual a b)
    | .list ra, .list rb =>
      match σ.get? ra, σ.get? rb with
      | some la, some lb =>
        if la.type ≠ lb.type then some false
        else if la.elems.length ≠ lb.elems.length then some false
        else isEqualLoop (isEqualV σ fuel) la.elems lb.elems
      | _, _ => none
    | .nil, .nil => some true
    | .bool a, .bool b => some (a = b)
    | .str a, .str b => some (a = b)
    | .callable a, .callable b =>
      match a, b with
      | .readFn, .readFn => some true
      | .printFn, .printFn => some true
      | .printlnFn, .printlnFn => some true
      | .copyFn, .copyFn => some true
      | .proto _, .proto _ => none
      | _, _ => some false
    | _, _ => some false

/-- The tail of `Interpreter::visit(const Binary&)` after both operands
are evaluated: the operator switch.  `isEqV` is the interpreter's value
equality (`isEqualV` with the heap and fuel, passed in by the
interpreter).  Exponentiation on a non-integer exponent leaves the
rational model (`std::pow` produces an irrational), so it is `none`
there.  An operator token no case matches falls through to
`m_val = nullptr`. -/
def binarySwitch (isEqV : Value → Value → Option Bool) (op : Token) (left right : Value) :
    Option (Except RErr Value) :=
  let numOperands := isNum left && isNum right
  let strOperands := isStr left && isStr right
  match op.type with
  | .PLUS =>
    if numOperands then
      match vnum left, vnum right with
      | some a, some b => some (.ok (.num (a + b)))
      | _, _ => none
    else if strOperands then
      match left, right with
      | .str a, .str b => some (.ok (.str (a ++ b)))
      | _, _ => none
    else some (.error ⟨op, "Both of the operands must be numbers or strings."⟩)
  | .MINUS =>
    if ¬ numOperands then some (.error ⟨op, "Operands must be numbers."⟩)
    else
      match vnum left, vnum right with
      | some a, some b => some (.ok (.num (a - b)))
      | _, _ => none
  | .PRODUCT =>
    if ¬ numOperands then some (.error ⟨op, "Operands must be numbers."⟩)
    else
      match vnum left, vnum right with
      | some a, some b => some (.ok (.num (a * b)))
      | _, _ => none
  | .DIVISON =>
    if ¬ numOperands then some (.error ⟨op, "Operands must be numbers."⟩)
    else
      match vnum left, vnum right with
      | some a, some b =>
        if qEqual b 0 then some (.error ⟨op, "Cannot divide by 0!"⟩)
        else some (.ok (.num (a / b)))
      | _, _ => none
  | .EXPONENTATION =>
    if ¬ numOperands then some (.error ⟨op, "Operands must be numbers."⟩)
    else
      match vnum left, vnum right with
      | some a, some b => if b.den = 1 then some (.ok (.num (a ^ b.num))) else none
      | _, _ => none
  | .GT_EQUAL =>
    if ¬ numOperands then some (.error ⟨op, "Operands must be numbers."⟩)
    else
      match vnum left, vnum right with
      | some a, some b =>
        some (.ok (.bool (if qEqual a b then true else if a > b then true else false)))
      | _, _ => none
  | .LT_EQUAL =>
    if ¬ numOperands then some (.error ⟨op, "Operands must be numbers."⟩)
    else
      match vnum left, vnum right with
      | some a, some b =>
        some (.ok (.bool (if qEqual a b then true else if a < b then true else false)))
      | _, _ => none
  | .LESS =>
    if ¬ numOperands then some (.error ⟨op, "Operands must be numbers."⟩)
    else
      match vnum left, vnum right with
      | some a, some b =>
        some (.ok (.bool (if qEqual a b then false else if a < b then true else false)))
      | _, _ => none
  | .GREATER =>
    if ¬ numOperands then some (.error ⟨op, "Operands must be numbers."⟩)
    else
      match vnum left, vnum right with
      | some a, some b =>
        some (.ok (.bool (if qEqual a b then false else if a > b then true else false)))
      | _, _ => none
  | .NOT_EQUAL =>
    match isEqV left right with
    | none => none
    | some b => some (.ok (.bool (!b)))
  | .EQ_EQUAL =>
    match isEqV left right with
    | none => none
    | some b => some (.ok (.bool b))
  | _ => some (.ok .nil)

/-- The tail of `Interpreter::visit(const Unary&)`: minus on numbers,
logical not by truthiness; any other operator token leaves `m_val` (the
operand) unchanged. -/
def unarySwitch (op : Token) (v : Value) : Option (Except RErr Value) :=
  match op.type with
  | .MINUS =>
    if ¬ isNum v then some (.error ⟨op, "Operand must be a number."⟩)
    else
      match vnum v with
      | none => none
      | some q => some (.ok (.num (-q)))
  | .NOT => some (.ok (.bool (!isTrue v)))
  | _ => some (.ok v)

/-! ### Environments, interpreter state and the statement evaluator -/

/-- An environment frame: parent (none for the root environment) and the
name→value slots.  Modelled from the spec: `Environment.hpp` is not part
of `src/`; spec §3 gives `Environment = { parent, slots }` with
ancestor-walking lookups.  Frames live in a heap, `Env_ptr` is an index
into it. -/
structure Frame where
  parent : Option Nat
  slots : List (String × Value)

/-- The environment heap. -/
abbrev Frames := List Frame

/-- Insert-or-overwrite in a slot list. -/
def slotsSet : List (String × Value) → String → Value → List (String × Value)
  | [], n, v => [(n, v)]
  | (m, w) :: rest, n, v =>
    if m = n then (m, v) :: rest else (m, w) :: slotsSet rest n v

/-- Slot lookup by name. -/
def slotsGet : List (String × Value) → String → Option Value
  | [], _ => none
  | (m, w) :: rest, n => if m = n then some w else slotsGet rest n

/-- Modelled from the spec: `Environment::assign` — create or overwrite
the binding in this very environment (used for the globals, for `fn`
definitions and by `assignAt` at the resolved ancestor). -/
def envAssign (h : Frames) (idx : Nat) (n : String) (v : Value) : Option Frames :=
  (h.get? idx).map fun f => h.set idx { f with slots := slotsSet f.slots n v }

/-- Modelled from the spec: the ancestor walk selecting the environment
`d` parent steps above `idx`. -/
def ancestor (h : Frames) : Nat → Nat → Option Nat
  | idx, 0 => some idx
  | idx, d + 1 =>
    match h.get? idx with
    | none => none
    | some f =>
      match f.parent with
      | none => none
      | some p => ancestor h p d

/-- Modelled from the spec: `Environment::getAt` — read the slot at
exactly the resolver-selected ancestor. -/
def envGetAt (h : Frames) (idx : Nat) (n : String) (d : Nat) : Option Value :=
  (ancestor h idx d).bind fun a => (h.get? a).bind fun f => slotsGet f.slots n

/-- Modelled from the spec: `Environment::assignAt` — lazy assignment at
exactly the resolver-selected ancestor. -/
def envAssignAt (h : Frames) (idx : Nat) (n : String) (v : Value) (d : Nat) :
    Option Frames :=
  (ancestor h idx d).bind fun a => envAssign h a n v

/-- Modelled from the spec: `Environment::strictAssignAt` (and, with
`d = 0` at the root, `strictAssign`) — strict assignment errors when no
binding with that name exists at the selected environment. -/
def envStrictAssignAt (h : Frames) (idx : Nat) (tok : Token) (v : Value) (d : Nat) :
    Option (Except RErr Frames) :=
  (ancestor h idx d).bind fun a => (h.get? a).map fun f =>
    match slotsGet f.slots tok.lexeme with
    | none => .error ⟨tok, "Cannot assign to an undefined variable."⟩
    | some _ => .ok (h.set a { f with slots := slotsSet f.slots tok.lexeme v })

/-- Modelled from the spec: `Environment::get` — lookup descending
through ancestors, a runtime error when the name is nowhere bound (the
fuel bounds the parent chain; by construction chains are acyclic). -/
def envGet (h : Frames) : Nat → Nat → Token → Option (Except RErr Value)
  | 0, _, _ => none
  | fu + 1, idx, tok =>
    (h.get? idx).bind fun f =>
      match slotsGet f.slots tok.lexeme with
      | some v => some (.ok v)
      | none =>
        match f.parent with
        | none => some (.error ⟨tok, "Undefined variable."⟩)
        | some p => envGet h fu p tok

/-- The resolver's output `m_locals`: depth per resolved expression
node.  The C++ map is keyed by node address; the embedding keys by the
node itself, which is adequate for the programs considered here. -/
abbrev Locals := Expr → Option Nat

/-- `Callable::arity` (modelled from the spec for the natives). -/
def Callable.arity : Callable → Nat
  | .readFn => 0
  | .printFn => 1
  | .printlnFn => 1
  | .copyFn => 1
  | .proto fn => fn.params.length

/-- The interpreter state: the environment heap, the list heap, the
current environment `m_env` (the root/global environment is frame 0),
the value register `m_val`, the number of runtime-error reports the
diagnostic sink received, and the I/O trace of the native functions
(`output` records the values passed to print/println). -/
structure St where
  frames : Frames
  lists : Lists
  envIdx : Nat
  mVal : Value
  reports : Nat
  output : List Value
  input : List String

/-- Non-local exits of the evaluator: the C++ throws `BreakThrow`,
`ContinueThrow`, `ReturnThrow` (carrying the value) and `RuntimeError`;
`normal` is ordinary completion with the result in `m_val`. -/
inductive Sig where
  | normal
  | brk
  | cont
  | ret (v : Value)
  | rerr (e : RErr)

/-- The parameter binding of a user-function call. -/
def bindParams : List String → List Value → List (String × Value)
  | [], _ => []
  | n :: ns, [] => (n, Value.nil) :: bindParams ns []
  | n :: ns, v :: vs => (n, v) :: bindParams ns vs

mutual

/-- `Interpreter`'s expression visitors (`visit(const Binary&)` etc.),
fuelled; `none` is fuel exhaustion or undefined behaviour. -/
def evalExpr (L : Locals) : Nat → Expr → St → Option (Sig × St)
  | 0, _, _ => none
  | f + 1, e, st =>
    match e with
    | .lit v _ => some (.normal, { st with mVal := v.toValue })
    | .variable_ name =>
      match L (.variable_ name) with
      | some d =>
        match envGetAt st.frames st.envIdx name.lexeme d with
        | none => none
        | some v => some (.normal, { st with mVal := v })
      | none =>
        match envGet st.frames (st.frames.length + 1) 0 name with
        | none => none
        | some (.error e) => some (.rerr e, st)
        | some (.ok v) => some (.normal, { st with mVal := v })
    | .paren e1 => evalExpr L f e1 st
    | .unary op right =>
      match evalExpr L f right st with
      | none => none
      | some (.normal, st') =>
        match unarySwitch op st'.mVal with
        | none => none
        | some (.error er) => some (.rerr er, st')
        | some (.ok v) => some (.normal, { st' with mVal := v })
      | some (sig, st') => some (sig, st')
    | .binary l op r =>
      match evalExpr L f l st with
      | none => none
      | some (.normal, st1) =>
        let left := st1.mVal
        match evalExpr L f r st1 with
        | none => none
        | some (.normal, st2) =>
          match binarySwitch (isEqualV st2.lists f) op left st2.mVal with
          | none => none
          | some (.error er) => some (.rerr er, st2)
          | some (.ok v) => some (.normal, { st2 with mVal := v })
        | some (sig, st2) => some (sig, st2)
      | some (sig, st1) => some (sig, st1)
    | .logical l op r =>
      match evalExpr L f l st with
      | none => none
      | some (.normal, st1) =>
        if op.type = .OR then
          if isTrue st1.mVal then some (.normal, { st1 with mVal := .bool true })
          else
            match evalExpr L f r st1 with
            | none => none
            | some (.normal, st2) =>
              some (.normal, { st2 with mVal := .bool (isTrue st2.mVal) })
            | some (sig, st2) => some (sig, st2)
        else
          if ¬ isTrue st1.mVal then some (.normal, { st1 with mVal := .bool false })
          else
            match evalExpr L f r st1 with
            | none => none
            | some (.normal, st2) =>
              some (.normal, { st2 with mVal := .bool (isTrue st2.mVal) })
            | some (sig, st2) => some (sig, st2)
      | some (sig, st1) => some (sig, st1)
    | .assign name op val =>
      match evalExpr L f val st with
      | none => none
      | some (.normal, st') =>
        let isStrict := op.type = .BT_EQUAL
        let isLazy := op.type = .EQUAL
        match L (.assign name op val) with
        | some d =>
          if isLazy then
            match envAssignAt st'.frames st'.envIdx name.lexeme st'.mVal d with
            | none => none
            | some fr => some (.normal, { st' with frames := fr })
          else if isStrict then
            match envStrictAssignAt st'.frames st'.envIdx name st'.mVal d with
            | none => none
            | some (.error er) => some (.rerr er, st')
            | some (.ok fr) => some (.normal, { st' with frames := fr })
          else some (.normal, st')
        | none =>
          if isLazy then
            match envAssign st'.frames 0 name.lexeme st'.mVal with
            | none => none
            | some fr => some (.normal, { st' with frames := fr })
          else if isStrict then
            match envStrictAssignAt st'.frames 0 name st'.mVal 0 with
            | none => none
            | some (.error er) => some (.rerr er, st')
            | some (.ok fr) => some (.normal, { st' with frames := fr })
          else some (.normal, st')
      | some (sig, st') => some (sig, st')
    | .call callee paren args =>
      match evalExpr L f callee st with
      | none => none
      | some (.normal, st1) =>
        let cv := st1.mVal
        match evalArgs L f args st1 with
        | none => none
        | some (.error (sig, st2)) => some (sig, st2)
        | some (.ok (vals, st2)) =>
          match cv with
          | .callable c =>
            if c.arity ≠ vals.length then
              some (.rerr ⟨paren, "Expected " ++ toString c.arity ++
                " argument(s) but got " ++ toString vals.length ++ " argument(s)."⟩, st2)
            else callCallable L f c vals st2
          | _ => some (.rerr ⟨paren, "Provided object is not callable."⟩, st2)
      | some (sig, st1) => some (sig, st1)
    | .lam params body =>
      some (.normal, { st with mVal := .callable (.proto ⟨"", params, body, st.envIdx⟩) })
    | .listE exprs brkt => listExprLoop L f exprs brkt st [] .empty true
    | .indexE iop listO index =>
      match evalExpr L f listO st with
      | none => none
      | some (.normal, st1) =>
        if ¬ isList st1.mVal then
          some (.rerr ⟨iop, "The index operator can only be used on lists."⟩, st1)
        else
          let lv := st1.mVal
          match evalExpr L f index st1 with
          | none => none
          | some (.normal, st2) =>
            match indexRun st2.lists lv st2.mVal iop with
            | none => none
            | some (.error er) => some (.rerr er, st2)
            | some (.ok (.inl v)) => some (.normal, { st2 with mVal := v })
            | some (.ok (.inr nl)) =>
              some (.normal,
                { st2 with lists := st2.lists ++ [nl], mVal := .list st2.lists.length })
          | some (sig, st2) => some (sig, st2)
      | some (sig, st1) => some (sig, st1)
    | .rangeE first step endE op =>
      match evalExpr L f first st with
      | none => none
      | some (.normal, st1) =>
        if ¬ isNum st1.mVal then
          some (.rerr ⟨op, "Ranges can only contain numeric descriptors."⟩, st1)
        else
          let va := st1.mVal
          match step with
          | none => rangeFinish L f va none endE op st1
          | some stepE =>
            match evalExpr L f stepE st1 with
            | none => none
            | some (.normal, st2) =>
              if ¬ isNum st2.mVal then
                some (.rerr ⟨op, "Ranges can only contain numeric descriptors."⟩, st2)
              else
                match vnum st2.mVal with
                | none => none
                | some s =>
                  if qEqual s 0 then
                    some (.rerr ⟨op, "Range step cannot be 0."⟩, st2)
                  else rangeFinish L f va (some st2.mVal) endE op st2
            | some (sig, st2) => some (sig, st2)
      | some (sig, st1) => some (sig, st1)
    | .indexAssign listO index iop op val =>
      match evalExpr L f listO st with
      | none => none
      | some (.normal, st1) =>
        if ¬ isList st1.mVal then
          some (.rerr ⟨iop, "The index operator can only be used on lists."⟩, st1)
        else
          let lv := st1.mVal
          match evalExpr L f index st1 with
          | none => none
          | some (.normal, st2) =>
            let iv := st2.mVal
            match (vlist lv).bind st2.lists.get? with
            | none => none
            | some listv =>
              match verifyIndices st2.lists listv iv iop with
              | none => none
              | some (.error er) => some (.rerr er, st2)
              | some (.ok ()) =>
                match evalExpr L f val st2 with
                | none => none
                | some (.normal, st3) =>
                  match indexAssignRun st3.lists lv iv st3.mVal iop op with
                  | none => none
                  | some (.error er) => some (.rerr er, st3)
                  | some (.ok σ) => some (.normal, { st3 with lists := σ })
                | some (sig, st3) => some (sig, st3)
          | some (sig, st2) => some (sig, st2)
      | some (sig, st1) => some (sig, st1)
    | .inE _ inKw iterable =>
      match evalExpr L f iterable st with
      | none => none
      | some (.normal, st1) =>
        if ¬ isList st1.mVal then
          some (.rerr ⟨inKw,
            "The specified object for the in-expression isn't an iterable."⟩, st1)
        else some (.normal, st1)
      | some (sig, st1) => some (sig, st1)

/-- The end of the `RangeExpr` visitor after the start (and step, when
present) have been evaluated and checked: check the end, run the loop,
allocate the result list. -/
def rangeFinish (L : Locals) : Nat → Value → Option Value → Expr → Token → St →
    Option (Sig × St)
  | 0, _, _, _, _, _ => none
  | f + 1, va, vs, endE, op, st =>
    match evalExpr L f endE st with
    | none => none
    | some (.normal, st') =>
      if ¬ isNum st'.mVal then
        some (.rerr ⟨op, "Ranges can only contain numeric descriptors."⟩, st')
      else
        match rangeRun f va vs st'.mVal op with
        | none => none
        | some (.error er) => some (.rerr er, st')
        | some (.ok nl) =>
          some (.normal,
            { st' with lists := st'.lists ++ [nl], mVal := .list st'.lists.length })
    | some (sig, st') => some (sig, st')

/-- The argument-evaluation loop of the `Call` visitor. -/
def evalArgs (L : Locals) : Nat → List Expr → St →
    Option (Except (Sig × St) (List Value × St))
  | 0, _, _ => none
  | f + 1, args, st =>
    match args with
    | [] => some (.ok ([], st))
    | a :: rest =>
      match evalExpr L f a st with
      | none => none
      | some (.normal, st') =>
        match evalArgs L f rest st' with
        | none => none
        | some (.error p) => some (.error p)
        | some (.ok (vs, st'')) => some (.ok (st'.mVal :: vs, st''))
      | some (sig, st') => some (.error (sig, st'))

/-- The element loop of the `ListExpr` visitor: evaluate left to right,
fix the tag on the first element, error on a variant mismatch, allocate
the list. -/
def listExprLoop (L : Locals) : Nat → List Expr → Token → St → List Value → Tag →
    Bool → Option (Sig × St)
  | 0, _, _, _, _, _, _ => none
  | f + 1, exprs, brkt, st, acc, type, first =>
    match exprs with
    | [] =>
      some (.normal,
        { st with lists := st.lists ++ [⟨acc, type⟩], mVal := .list st.lists.length })
    | e :: rest =>
      match evalExpr L f e st with
      | none => none
      | some (.normal, st') =>
        let type' := if first then vtag st'.mVal else type
        if type' ≠ vtag st'.mVal then
          some (.rerr ⟨brkt, "Lists are homogenous and can't contain different types."⟩, st')
        else listExprLoop L f rest brkt st' (acc ++ [st'.mVal]) type' false
      | some (sig, st') => some (sig, st')

/-- Modelled from the spec: `copy` — deep copy for lists (recursively
cloning nested lists, allocating fresh list objects), identity for
scalars, shared for callables. -/
def copyValue : Nat → Value → St → Option (Value × St)
  | 0, _, _ => none
  | f + 1, v, st =>
    match v with
    | .list r =>
      match st.lists.get? r with
      | none => none
      | some lv =>
        match copyElems f lv.elems st with
        | none => none
        | some (es, st') =>
          some (.list st'.lists.length,
            { st' with lists := st'.lists ++ [⟨es, lv.type⟩] })
    | _ => some (v, st)

/-- The element loop of the deep copy. -/
def copyElems : Nat → List Value → St → Option (List Value × St)
  | 0, _, _ => none
  | f + 1, vs, st =>
    match vs with
    | [] => some ([], st)
    | v :: rest =>
      match copyValue f v st with
      | none => none
      | some (v', st') =>
        match copyElems f rest st' with
        | none => none
        | some (vs', st'') => some (v' :: vs', st'')

/-- Dispatch of `Callable::call`.  The natives are modelled from the
spec (§4.4 and §6); a user function allocates a fresh environment whose
parent is the captured closure, binds the parameters and runs the body
through `executeBlock` — a `ReturnThrow` caught there is the result,
falling off the end yields nil (`ProtoFunc.hpp` is not part of
`src/`). -/
def callCallable (L : Locals) : Nat → Callable → List Value → St → Option (Sig × St)
  | 0, _, _, _ => none
  | f + 1, c, vals, st =>
    match c with
    | .readFn =>
      some (.normal,
        { st with mVal := .str (st.input.headD ""), input := st.input.drop 1 })
    | .printFn =>
      match vals with
      | [v] => some (.normal, { st with output := st.output ++ [v], mVal := .nil })
      | _ => none
    | .printlnFn =>
      match vals with
      | [v] => some (.normal, { st with output := st.output ++ [v], mVal := .nil })
      | _ => none
    | .copyFn =>
      match vals with
      | [v] =>
        match copyValue f v st with
        | none => none
        | some (v', st') => some (.normal, { st' with mVal := v' })
      | _ => none
    | .proto fn =>
      let bound := bindParams (fn.params.map Token.lexeme) vals
      let newIdx := st.frames.length
      let st1 := { st with frames := st.frames ++ [⟨some fn.closure, bound⟩] }
      match executeBlock L f fn.body newIdx st1 with
      | none => none
      | some (.normal, st') => some (.normal, { st' with mVal := .nil })
      | some (.ret v, st') => some (.normal, { st' with mVal := v })
      | some (sig, st') => some (sig, st')

/-- Statement dispatch (`Interpreter::execute`); a null statement
pointer (parser error recovery) has no defined behaviour. -/
def execOptStmt (L : Locals) : Nat → Option Stmt → St → Option (Sig × St)
  | 0, _, _ => none
  | f + 1, os, st =>
    match os with
    | none => none
    | some s => execStmt L f s st

/-- The statement visitors of `Interpreter`. -/
def execStmt (L : Locals) : Nat → Stmt → St → Option (Sig × St)
  | 0, _, _ => none
  | f + 1, s, st =>
    match s with
    | .expression e => evalExpr L f e st
    | .block stmts =>
      executeBlock L f stmts st.frames.length
        { st with frames := st.frames ++ [⟨some st.envIdx, []⟩] }
    | .ifS c t e =>
      match evalExpr L f c st with
      | none => none
      | some (.normal, st') =>
        if isTrue st'.mVal then execOptStmt L f t st'
        else
          match e with
          | none => some (.normal, st')
          | some es => execStmt L f es st'
      | some (sig, st') => some (sig, st')
    | .whileS c body =>
      match evalExpr L f c st with
      | none => none
      | some (.normal, st') => whileLoop L f c body st'
      | some (sig, st') => some (sig, st')
    | .forS init cond incr body =>
      let parent := st.envIdx
      let newIdx := st.frames.length
      let st1 := { st with frames := st.frames ++ [⟨some parent, []⟩], envIdx := newIdx }
      let afterInit :=
        match init with
        | none => some (Sig.normal, st1)
        | some ie => evalExpr L f ie st1
      match afterInit with
      | none => none
      | some (.normal, st2) =>
        match evalExpr L f cond st2 with
        | none => none
        | some (.normal, st3) =>
          match forLoop L f cond incr body st3 with
          | none => none
          | some (.normal, st4) => some (.normal, { st4 with envIdx := parent })
          | some (sig, st4) => some (sig, st4)
        | some (sig, st3) => some (sig, st3)
      | some (sig, st2) => some (sig, st2)
    | .rangedFor inexpr body =>
      let parent := st.envIdx
      let newIdx := st.frames.length
      let st1 := { st with frames := st.frames ++ [⟨some parent, []⟩], envIdx := newIdx }
      match evalExpr L f inexpr st1 with
      | none => none
      | some (.normal, st2) =>
        match vlist st2.mVal with
        | none => none
        | some ref =>
          match L inexpr with
          | none => none
          | some dist =>
            match inexpr with
            | .inE name _ _ =>
              match rangedForLoop L f ref name.lexeme dist body 0 st2 with
              | none => none
              | some (.normal, st3) => some (.normal, { st3 with envIdx := parent })
              | some (sig, st3) => some (sig, st3)
            | _ => none
      | some (sig, st2) => some (sig, st2)
    | .brk => some (.brk, st)
    | .cont => some (.cont, st)
    | .func name params body =>
      match envAssign st.frames st.envIdx name.lexeme
          (.callable (.proto ⟨name.lexeme, params, body, st.envIdx⟩)) with
      | none => none
      | some fr => some (.normal, { st with frames := fr })
    | .ret _ val =>
      match val with
      | some e =>
        match evalExpr L f e st with
        | none => none
        | some (.normal, st') => some (.ret st'.mVal, st')
        | some (sig, st') => some (sig, st')
      | none => some (.ret .nil, { st with mVal := .nil })

/-- The while loop of `visit(const While&)`: the body runs under a catch
for `ContinueThrow`, the whole loop (body and condition re-evaluation)
under a catch for `BreakThrow`; return values and runtime errors
propagate.  Expects the latest condition value in `m_val`. -/
def whileLoop (L : Locals) : Nat → Expr → Option Stmt → St → Option (Sig × St)
  | 0, _, _, _ => none
  | f + 1, cond, body, st =>
    if isTrue st.mVal then
      match execOptStmt L f body st with
      | none => none
      | some (.normal, st') =>
        match evalExpr L f cond st' with
        | none => none
        | some (.normal, st'') => whileLoop L f cond body st''
        | some (.brk, st'') => some (.normal, st'')
        | some (sig, st'') => some (sig, st'')
      | some (.cont, st') =>
        match evalExpr L f cond st' with
        | none => none
        | some (.normal, st'') => whileLoop L f cond body st''
        | some (.brk, st'') => some (.normal, st'')
        | some (sig, st'') => some (sig, st'')
      | some (.brk, st') => some (.normal, st')
      | some (sig, st') => some (sig, st')
    else some (.normal, st)

/-- The body execution of the C-style for: a block body shares the
head's scope (`executeBlock(block->m_stmts, m_env)`), any other body is
executed plainly. -/
def forBody (L : Locals) : Nat → Option Stmt → St → Option (Sig × St)
  | 0, _, _ => none
  | f + 1, body, st =>
    match body with
    | some (.block stmts) => executeBlock L f stmts st.envIdx st
    | _ => execOptStmt L f body st

/-- The loop of `visit(const For&)`: body (continue caught), increment,
condition re-evaluation, all under the break catch. -/
def forLoop (L : Locals) : Nat → Expr → Option Expr → Option Stmt → St →
    Option (Sig × St)
  | 0, _, _, _, _ => none
  | f + 1, cond, incr, body, st =>
    if isTrue st.mVal then
      match forBody L f body st with
      | none => none
      | some (.normal, st') => forIncrCond L f cond incr body st'
      | some (.cont, st') => forIncrCond L f cond incr body st'
      | some (.brk, st') => some (.normal, st')
      | some (sig, st') => some (sig, st')
    else some (.normal, st)

/-- Increment and condition re-evaluation of the C-style for (still
under the break catch). -/
def forIncrCond (L : Locals) : Nat → Expr → Option Expr → Option Stmt → St →
    Option (Sig × St)
  | 0, _, _, _, _ => none
  | f + 1, cond, incr, body, st =>
    let afterIncr :=
      match incr with
      | none => some (Sig.normal, st)
      | some ie => evalExpr L f ie st
    match afterIncr with
    | none => none
    | some (.normal, st') =>
      match evalExpr L f cond st' with
      | none => none
      | some (.normal, st'') => forLoop L f cond incr body st''
      | some (.brk, st'') => some (.normal, st'')
      | some (sig, st'') => some (sig, st'')
    | some (.brk, st') => some (.normal, st')
    | some (sig, st') => some (sig, st')

/-- The loop of `visit(const RangedFor&)`: while the index is below the
(live) iterable's length, strictly bind the loop variable at the
resolved depth and run the body (continue caught; break caught by the
outer handler; a block body shares the head's scope). -/
def rangedForLoop (L : Locals) : Nat → Nat → String → Nat → Option Stmt → Nat → St →
    Option (Sig × St)
  | 0, _, _, _, _, _, _ => none
  | f + 1, ref, name, dist, body, i, st =>
    match st.lists.get? ref with
    | none => none
    | some lv =>
      if h : i < lv.elems.length then
        match envAssignAt st.frames st.envIdx name (lv.elems.get ⟨i, h⟩) dist with
        | none => none
        | some fr =>
          match forBody L f body { st with frames := fr } with
          | none => none
          | some (.normal, st') => rangedForLoop L f ref name dist body (i + 1) st'
          | some (.cont, st') => rangedForLoop L f ref name dist body (i + 1) st'
          | some (.brk, st') => some (.normal, st')
          | some (sig, st') => some (sig, st')
      else some (.normal, st)

/-- `Interpreter::executeBlock` (lines 688-710): save the current
environment, install `env`, run the statements; on normal completion
restore; a `RuntimeError` is caught here — the environment is restored,
the error reported to the sink, and the block completes NORMALLY; a
`ReturnThrow` restores the environment and is rethrown; `BreakThrow`
and `ContinueThrow` are NOT caught, so they propagate without the
restore. -/
def executeBlock (L : Locals) : Nat → List (Option Stmt) → Nat → St → Option (Sig × St)
  | 0, _, _, _ => none
  | f + 1, stmts, env, st =>
    let parent := st.envIdx
    match execStmts L f stmts { st with envIdx := env } with
    | none => none
    | some (.normal, st') => some (.normal, { st' with envIdx := parent })
    | some (.rerr _, st') =>
      some (.normal, { st' with envIdx := parent, reports := st'.reports + 1 })
    | some (.ret v, st') => some (.ret v, { st' with envIdx := parent })
    | some (.brk, st') => some (.brk, st')
    | some (.cont, st') => some (.cont, st')

/-- Sequential execution of a statement list, stopping at the first
non-normal signal (the shared loop shape of `executeBlock` and
`interpret`). -/
def execStmts (L : Locals) : Nat → List (Option Stmt) → St → Option (Sig × St)
  | 0, _, _ => none
  | f + 1, stmts, st =>
    match stmts with
    | [] => some (.normal, st)
    | s :: rest =>
      match execOptStmt L f s st with
      | none => none
      | some (.normal, st') => execStmts L f rest st'
      | some (sig, st') => some (sig, st')

end

/-- `Interpreter::interpret(const Stmts&)` (lines 712-721): run the
top-level statements inside one try; a `RuntimeError` escaping a
statement aborts the WHOLE loop and is reported once.  A break,
continue or return escaping to the top level would be an uncaught C++
exception (no defined result). -/
def interpret (L : Locals) (f : Nat) (stmts : List (Option Stmt)) (st : St) : Option St :=
  match execStmts L f stmts st with
  | none => none
  | some (.normal, st') => some st'
  | some (.rerr _, st') => some { st' with reports := st'.reports + 1 }
  | some (_, _) => none

/-- The interpreter's starting state (`Interpreter::Interpreter()`):
one root environment holding the four natives, empty list heap,
`m_val = nullptr`. -/
def initSt (input : List String) : St :=
  { frames := [⟨none, [("read", .callable .readFn), ("print", .callable .printFn),
      ("println", .callable .printlnFn), ("copy", .callable .copyFn)]⟩],
    lists := [], envIdx := 0, mVal := .nil, reports := 0, output := [], input := input }

/-- The empty resolver output: every variable is global (all the
concrete programs below use only globals). -/
def noLocals : Locals := fun _ => none

/-- The value bound to `n` in the global environment of a state. -/
def globalVal (st : St) (n : String) : Option Value :=
  (st.frames.get? 0).bind fun fr => slotsGet fr.slots n

/-! ### The recursive-descent parser (`Parser.cpp`) -/

/-- A thrown `ParseError` (it carries the offending message). -/
structure PErr where
  msg : String
  deriving DecidableEq, Repr

/-- Parser state: the token vector (the lexer terminates it with the
`EOF` sentinel), the cursor `m_current`, the number of diagnostics
reported, `m_loopDepth`, and the REPL-expression flags. -/
structure PSt where
  toks : List Token
  cur : Nat
  errs : Nat
  loopDepth : Nat
  allowExpr : Bool
  foundExpr : Bool

/-- The result of a parser routine: `none` is fuel exhaustion (or a
malformed call the C++ would crash on); otherwise the `ParseError` or
the value, with the state after it (the cursor advances persist across
thrown errors, as with the C++ member `m_current`). -/
abbrev PRes (α : Type) := Option (Except PErr α × PSt)

/-- Sequencing that propagates a thrown `ParseError`. -/
def pbind {α β : Type} (r : PRes α) (k : α → PSt → PRes β) : PRes β :=
  match r with
  | none => none
  | some (.error e, s) => some (.error e, s)
  | some (.ok a, s) => k a s

/-- `Parser::peek`. -/
def peek (s : PSt) : Token := s.toks.getD s.cur eofTok

/-- The token after the cursor (what `peek` sees after one `advance`). -/
def peekNext (s : PSt) : Token := s.toks.getD (s.cur + 1) eofTok

/-- `Parser::previous`. -/
def previous (s : PSt) : Token := s.toks.getD (s.cur - 1) eofTok

/-- `Parser::isAtEnd`. -/
def isAtEnd (s : PSt) : Bool := (peek s).type = .EOFTOK

/-- The cursor move of `Parser::advance`. -/
def padvanceState (s : PSt) : PSt :=
  if isAtEnd s then s else { s with cur := s.cur + 1 }

/-- `Parser::isNextType`. -/
def isNextType (s : PSt) (t : TokType) : Bool :=
  if isAtEnd s then false else (peek s).type = t

/-- `Parser::isNextNextType`. -/
def isNextNextType (s : PSt) (t : TokType) : Bool :=
  if isAtEnd s then false
  else if (peekNext s).type = .EOFTOK then false
  else (peekNext s).type = t

/-- `Parser::match`: consume the next token when its kind is among
`types`. -/
def pmatch (types : List TokType) (s : PSt) : Bool × PSt :=
  if types.any (fun t => isNextType s t) then (true, padvanceState s) else (false, s)

/-- `Parser::error`: report to the sink (counted) and build the
`ParseError` — the caller decides whether to throw it. -/
def pReport (s : PSt) : PSt := { s with errs := s.errs + 1 }

/-- `Parser::matchWithErr`: expect a token kind or throw. -/
def pMatchWithErr (t : TokType) (msg : String) (s : PSt) : PRes Unit :=
  if isNextType s t then some (.ok (), padvanceState s)
  else some (.error ⟨msg⟩, pReport s)

/-- Modelled from the spec: the token→value conversion done by the
`Literal` constructor (`Expressions.hpp` is not part of `src/`): the
token's literal kind selects the variant, numeric lexemes are parsed
(digits, optional fraction, optional exponent). -/
def digitsVal (cs : List Char) : Nat :=
  cs.foldl (fun a c => a * 10 + (c.toNat - 48)) 0

/-- Split a character list at the first occurrence of `c`. -/
def splitOn (c : Char) : List Char → List Char × Option (List Char)
  | [] => ([], none)
  | x :: xs =>
    if x = c then ([], some xs)
    else
      let (a, b) := splitOn c xs
      (x :: a, b)

/-- Modelled from the spec: numeric literal lexeme to rational. -/
def parseNumLit (str : String) : ℚ :=
  let (mant, ex) := splitOn 'e' str.toList
  let (ip, fp) := splitOn '.' mant
  let base : ℚ := (digitsVal ip : ℚ) +
    (match fp with
     | none => 0
     | some ds => (digitsVal ds : ℚ) / (10 ^ ds.length))
  match ex with
  | none => base
  | some ('+' :: ds) => base * 10 ^ digitsVal ds
  | some ('-' :: ds) => base / 10 ^ digitsVal ds
  | some ds => base * 10 ^ digitsVal ds

/-- Modelled from the spec: `Literal::m_val` from the literal token. -/
def litValue (t : Token) : LitVal :=
  match t.lit with
  | .NUM => .num (parseNumLit t.lexeme)
  | .STR => .str t.lexeme
  | .NIL => .nil
  | .TR => .bool true
  | .FA => .bool false
  | .NONE => .nil

/-- The recursion interface of the parser: one field per routine that
is reached recursively (directly, as with `assignment` inside
`assignment`, or through a cycle, as with `primary → expression`).
`parserAt` below ties the knot with explicit fuel: a routine at fuel
`f + 1` reaches these fields at fuel `f`, while the straight
precedence-descent within one level calls the `…F` functions directly.
This renders the same call graph as `Parser.cpp` while keeping every
definition non-recursive and so symbolically unfoldable. -/
structure PFuncs where
  expression : PSt → PRes Expr
  assignment : PSt → PRes Expr
  unaryFn : PSt → PRes Expr
  exponentFn : PSt → PRes Expr
  lorLoop : Expr → PSt → PRes Expr
  landLoop : Expr → PSt → PRes Expr
  eqLoop : Expr → PSt → PRes Expr
  compLoop : Expr → PSt → PRes Expr
  addLoop : Expr → PSt → PRes Expr
  prodLoop : Expr → PSt → PRes Expr
  callIndexLoop : Expr → PSt → PRes Expr
  callArgs : PSt → List Expr → PRes (List Expr)
  paramsFn : PSt → String → List Token → PRes (List Token)
  listElems : PSt → List Expr → PRes (List Expr)
  statement : PSt → Option (Option Stmt × PSt)
  blockLoop : PSt → List (Option Stmt) → PRes (List (Option Stmt))
  syncLoop : PSt → Option PSt

/-- The parameter list of a function or lambda (`do ... while
(match(COMMA))`; the 127 cap is reported, a missing identifier
throws). -/
def pParamsF (rec : PFuncs) (s : PSt) (capMsg : String) (acc : List Token) :
    PRes (List Token) :=
  let s0 := if 127 ≤ acc.length then pReport s else s
  pbind (pMatchWithErr .IDENTIFIER "Expected a parameter name after ','." s0)
    fun _ s1 =>
      let p := previous s1
      let (m, s2) := pmatch [.COMMA] s1
      if m then rec.paramsFn s2 capMsg (acc ++ [p])
      else some (.ok (acc ++ [p]), s2)

/-- The element list of a list literal (`do ... while (match(COMMA))`). -/
def pListElemsF (rec : PFuncs) (s : PSt) (acc : List Expr) : PRes (List Expr) :=
  pbind (rec.expression s) fun a s1 =>
    let (m, s2) := pmatch [.COMMA] s1
    if m then rec.listElems s2 (acc ++ [a])
    else some (.ok (acc ++ [a]), s2)

/-- `Parser::list`: the bracketed expression list (the opening bracket
was already consumed: `previous()` is the bracket token). -/
def pListF (rec : PFuncs) (s : PSt) : PRes Expr :=
  let lsqr := previous s
  let elemsRes : PRes (List Expr) :=
    if isNextType s .RSQRBRKT then some (.ok [], s)
    else pListElemsF rec s []
  pbind elemsRes fun exprs s1 =>
    pbind (pMatchWithErr .RSQRBRKT "Expected a ']' after list end." s1) fun _ s2 =>
      some (.ok (.listE exprs lsqr), s2)

/-- The statement repetition of `Parser::block` and the closing
brace. -/
def pBlockLoopF (rec : PFuncs) (s : PSt) (acc : List (Option Stmt)) :
    PRes (List (Option Stmt)) :=
  if ¬ isNextType s .RBRACE && ¬ isAtEnd s then
    match rec.statement s with
    | none => none
    | some (ost, s') => rec.blockLoop s' (acc ++ [ost])
  else
    pbind (pMatchWithErr .RBRACE "Expected a '\x7d' at the end of the block." s)
      fun _ s' => some (.ok acc, s')

/-- `Parser::block`. -/
def pBlockF (rec : PFuncs) (s : PSt) : PRes (List (Option Stmt)) :=
  pBlockLoopF rec s []

/-- `Parser::primary`. -/
def pPrimaryF (rec : PFuncs) (s : PSt) : PRes Expr :=
  let (m1, s1) := pmatch [.TRUE, .FALSE, .NIX, .NUMBER, .STRING] s
  if m1 then some (.ok (.lit (litValue (previous s1)) (previous s1)), s1)
  else
    let (m2, s2) := pmatch [.LPAREN] s1
    if m2 then
      pbind (rec.expression s2) fun e s3 =>
        pbind (pMatchWithErr .RPAREN "Expected ')' after expression." s3) fun _ s4 =>
          some (.ok (.paren e), s4)
    else
      let (m3, s3) := pmatch [.IDENTIFIER] s2
      if m3 then some (.ok (.variable_ (previous s3)), s3)
      else
        let (m4, s4) := pmatch [.FUNCTION] s3
        if m4 then
          pbind (pMatchWithErr .LPAREN "Expected a '(' after fn" s4) fun _ s5 =>
            let paramsRes : PRes (List Token) :=
              if isNextType s5 .RPAREN then some (.ok [], s5)
              else pParamsF rec s5 "Cannot have more than 127 parameters in a lambda." []
            pbind paramsRes fun params s6 =>
              pbind (pMatchWithErr .RPAREN "Expected a ')' after lambda parameters." s6)
                fun _ s7 =>
                  pbind (pMatchWithErr .LBRACE "Expected a '\x7b' before lambda body." s7)
                    fun _ s8 =>
                      pbind (pBlockF rec s8) fun body s9 =>
                        some (.ok (.lam params body), s9)
        else
          let (m5, s5) := pmatch [.LSQRBRKT] s4
          if m5 then pListF rec s5
          else some (.error ⟨"Invalid Syntax."⟩, pReport s5)

/-- The argument list of a call (`do ... while (match(COMMA))`, with
the 127-argument cap reported but not thrown). -/
def pCallArgsF (rec : PFuncs) (s : PSt) (acc : List Expr) : PRes (List Expr) :=
  let s0 := if 127 ≤ acc.length then pReport s else s
  pbind (rec.expression s0) fun a s1 =>
    let (m, s2) := pmatch [.COMMA] s1
    if m then rec.callArgs s2 (acc ++ [a])
    else some (.ok (acc ++ [a]), s2)

/-- The `while (true)` of `Parser::index_or_call`: call arguments or an
index (list-of-indices or scalar), else exit. -/
def pCallIndexLoopF (rec : PFuncs) (e : Expr) (s : PSt) : PRes Expr :=
  let (mp, s1) := pmatch [.LPAREN] s
  if mp then
    let argsRes : PRes (List Expr) :=
      if isNextType s1 .RPAREN then some (.ok [], s1)
      else pCallArgsF rec s1 []
    pbind argsRes fun args s2 =>
      pbind (pMatchWithErr .RPAREN "Expected a ')' after function arguments." s2)
        fun _ s3 =>
          let paren := previous s3
          rec.callIndexLoop (.call e paren args) s3
  else
    let (mb, s2) := pmatch [.LSQRBRKT] s1
    if mb then
      let tok := previous s2
      let (mb2, s3) := pmatch [.LSQRBRKT] s2
      if mb2 then
        pbind (pListF rec s3) fun listIndex s4 =>
          pbind (pMatchWithErr .RSQRBRKT "Expected a ']' after index end." s4)
            fun _ s5 => rec.callIndexLoop (.indexE tok e listIndex) s5
      else
        pbind (rec.expression s3) fun index s4 =>
          pbind (pMatchWithErr .RSQRBRKT "Expected a ']' after index end." s4)
            fun _ s5 => rec.callIndexLoop (.indexE tok e index) s5
    else some (.ok e, s2)

/-- `Parser::index_or_call`: primary then the call/index repetition. -/
def pIndexOrCallF (rec : PFuncs) (s : PSt) : PRes Expr :=
  pbind (pPrimaryF rec s) fun e s1 => pCallIndexLoopF rec e s1

/-- `Parser::exponentiation` (right-associative). -/
def pExponentiationF (rec : PFuncs) (s : PSt) : PRes Expr :=
  pbind (pIndexOrCallF rec s) fun base s1 =>
    let (m, s2) := pmatch [.EXPONENTATION] s1
    if m then
      let op := previous s2
      pbind (rec.exponentFn s2) fun power s3 =>
        some (.ok (.binary base op power), s3)
    else some (.ok base, s2)

/-- `Parser::unary`. -/
def pUnaryF (rec : PFuncs) (s : PSt) : PRes Expr :=
  let (m, s1) := pmatch [.NOT, .MINUS] s
  if m then
    let op := previous s1
    pbind (rec.unaryFn s1) fun right s2 => some (.ok (.unary op right), s2)
  else pExponentiationF rec s1

/-- The `* /` repetition of `Parser::product`. -/
def pProductLoopF (rec : PFuncs) (e : Expr) (s : PSt) : PRes Expr :=
  let (m, s1) := pmatch [.PRODUCT, .DIVISON] s
  if m then
    let op := previous s1
    pbind (pUnaryF rec s1) fun right s2 => rec.prodLoop (.binary e op right) s2
  else some (.ok e, s1)

/-- `Parser::product`. -/
def pProductF (rec : PFuncs) (s : PSt) : PRes Expr :=
  pbind (pUnaryF rec s) fun e s1 => pProductLoopF rec e s1

/-- The `+ -` repetition of `Parser::addition`. -/
def pAdditionLoopF (rec : PFuncs) (e : Expr) (s : PSt) : PRes Expr :=
  let (m, s1) := pmatch [.PLUS, .MINUS] s
  if m then
    let op := previous s1
    pbind (pProductF rec s1) fun right s2 => rec.addLoop (.binary e op right) s2
  else some (.ok e, s1)

/-- `Parser::addition`. -/
def pAdditionF (rec : PFuncs) (s : PSt) : PRes Expr :=
  pbind (pProductF rec s) fun e s1 => pAdditionLoopF rec e s1

/-- `Parser::range`: `a..b` or `a..s..b`. -/
def pRangeF (rec : PFuncs) (s : PSt) : PRes Expr :=
  pbind (pAdditionF rec s) fun e s1 =>
    let (m, s2) := pmatch [.DOT_DOT] s1
    if m then
      let op := previous s2
      pbind (pAdditionF rec s2) fun e2 s3 =>
        let (m2, s4) := pmatch [.DOT_DOT] s3
        if m2 then
          pbind (pAdditionF rec s4) fun e3 s5 =>
            some (.ok (.rangeE e (some e2) e3 op), s5)
        else some (.ok (.rangeE e none e2 op), s4)
    else some (.ok e, s2)

/-- The `> >= < <=` repetition of `Parser::comparision`. -/
def pComparisionLoopF (rec : PFuncs) (e : Expr) (s : PSt) : PRes Expr :=
  let (m, s1) := pmatch [.GREATER, .GT_EQUAL, .LESS, .LT_EQUAL] s
  if m then
    let op := previous s1
    pbind (pRangeF rec s1) fun right s2 => rec.compLoop (.binary e op right) s2
  else some (.ok e, s1)

/-- `Parser::comparision`. -/
def pComparisionF (rec : PFuncs) (s : PSt) : PRes Expr :=
  pbind (pRangeF rec s) fun e s1 => pComparisionLoopF rec e s1

/-- The `!= ==` repetition of `Parser::equality`. -/
def pEqualityLoopF (rec : PFuncs) (e : Expr) (s : PSt) : PRes Expr :=
  let (m, s1) := pmatch [.NOT_EQUAL, .EQ_EQUAL] s
  if m then
    let op := previous s1
    pbind (pComparisionF rec s1) fun right s2 => rec.eqLoop (.binary e op right) s2
  else some (.ok e, s1)

/-- `Parser::equality`. -/
def pEqualityF (rec : PFuncs) (s : PSt) : PRes Expr :=
  pbind (pComparisionF rec s) fun e s1 => pEqualityLoopF rec e s1

/-- The `and` repetition of `Parser::land`. -/
def pLandLoopF (rec : PFuncs) (e : Expr) (s : PSt) : PRes Expr :=
  let (m, s1) := pmatch [.AND] s
  if m then
    let op := previous s1
    pbind (pEqualityF rec s1) fun right s2 => rec.landLoop (.logical e op right) s2
  else some (.ok e, s1)

/-- `Parser::land`. -/
def pLandF (rec : PFuncs) (s : PSt) : PRes Expr :=
  pbind (pEqualityF rec s) fun e s1 => pLandLoopF rec e s1

/-- The `or` repetition of `Parser::lor`. -/
def pLorLoopF (rec : PFuncs) (e : Expr) (s : PSt) : PRes Expr :=
  let (m, s1) := pmatch [.OR] s
  if m then
    let op := previous s1
    pbind (pLandF rec s1) fun right s2 => rec.lorLoop (.logical e op right) s2
  else some (.ok e, s1)

/-- `Parser::lor`. -/
def pLorF (rec : PFuncs) (s : PSt) : PRes Expr :=
  pbind (pLandF rec s) fun e s1 => pLorLoopF rec e s1

/-- `Parser::assignment`, third block: the `in`-expression; a missing
identifier reports and falls through to returning the left side. -/
def pInTailF (rec : PFuncs) (expr : Expr) (s : PSt) : PRes Expr :=
  let (m3, s3) := pmatch [.IN] s
  if m3 then
    let inTok := previous s3
    pbind (rec.assignment s3) fun iterable s4 =>
      match expr with
      | .variable_ name => some (.ok (.inE name inTok iterable), s4)
      | _ => some (.ok expr, pReport s4)
  else some (.ok expr, s3)

/-- `Parser::assignment`, second block: the compound assignments
`+= -= *= /=` desugared in place to a strict assignment whose value is
the corresponding `Binary` node (the operator and `` `= `` tokens are
fabricated on the compound token's line); an invalid target reports and
falls through. -/
def pAssignTailF (rec : PFuncs) (expr : Expr) (s : PSt) : PRes Expr :=
  let (m2, s2) := pmatch [.PROD_EQUAL, .DIV_EQUAL, .PLUS_EQUAL, .MINUS_EQUAL] s
  if m2 then
    let op := previous s2
    pbind (rec.assignment s2) fun val s3 =>
      match expr with
      | .variable_ name =>
        let val2 : Expr :=
          match op.type with
          | .PLUS_EQUAL => .binary (.variable_ name) ⟨.PLUS, "+", op.line, .NONE⟩ val
          | .MINUS_EQUAL => .binary (.variable_ name) ⟨.MINUS, "-", op.line, .NONE⟩ val
          | .PROD_EQUAL => .binary (.variable_ name) ⟨.PRODUCT, "*", op.line, .NONE⟩ val
          | .DIV_EQUAL => .binary (.variable_ name) ⟨.DIVISON, "/", op.line, .NONE⟩ val
          | _ => val
        some (.ok (.assign name ⟨.BT_EQUAL, "`=", op.line, .NONE⟩ val2), s3)
      | _ => pInTailF rec expr (pReport s3)
  else pInTailF rec expr s2

/-- `Parser::assignment`, first block: lazy/strict assignment to an
identifier or an index expression; on an invalid target the error is
reported (not thrown) and control falls through to the remaining
blocks, which `pAssignTailF` renders. -/
def pAssignmentF (rec : PFuncs) (s : PSt) : PRes Expr :=
  pbind (pLorF rec s) fun expr s1 =>
    let (m1, s2) := pmatch [.EQUAL, .BT_EQUAL] s1
    if m1 then
      let op := previous s2
      pbind (rec.assignment s2) fun val s3 =>
        match expr with
        | .variable_ name => some (.ok (.assign name op val), s3)
        | .indexE iop lst idx => some (.ok (.indexAssign lst idx iop op val), s3)
        | _ => pAssignTailF rec expr (pReport s3)
    else pAssignTailF rec expr s2

/-- `Parser::expression`. -/
def pExpressionF (rec : PFuncs) (s : PSt) : PRes Expr :=
  pAssignmentF rec s

/-- The recovery loop of `Parser::sync`: consume until after a
semicolon or before a statement keyword. -/
def pSyncLoopF (rec : PFuncs) (s : PSt) : Option PSt :=
  if isAtEnd s then some s
  else if (previous s).type = .SEMICOLON then some s
  else
    match (peek s).type with
    | .CLASS | .IF | .WHILE | .FOR | .FUNCTION | .RETURN => some s
    | _ => rec.syncLoop (padvanceState s)

/-- `Parser::sync`: the advance before the loop. -/
def pSyncF (rec : PFuncs) (s : PSt) : Option PSt :=
  pSyncLoopF rec (padvanceState s)

/-- `Parser::ifstmt`. -/
def pIfstmtF (rec : PFuncs) (s : PSt) : PRes Stmt :=
  pbind (pMatchWithErr .LPAREN "Expected a '(' after 'if'." s) fun _ s1 =>
    pbind (pExpressionF rec s1) fun cond s2 =>
      pbind (pMatchWithErr .RPAREN "Expected a ')' after if condition." s2) fun _ s3 =>
        match rec.statement s3 with
        | none => none
        | some (thenB, s4) =>
          let (mElse, s5) := pmatch [.ELSE] s4
          if mElse then
            match rec.statement s5 with
            | none => none
            | some (elseB, s6) => some (.ok (.ifS cond thenB elseB), s6)
          else some (.ok (.ifS cond thenB none), s5)

/-- `Parser::whilestmt` (the body parses at `m_loopDepth + 1`). -/
def pWhilestmtF (rec : PFuncs) (s : PSt) : PRes Stmt :=
  pbind (pMatchWithErr .LPAREN "Expected a '(' after 'while'." s) fun _ s1 =>
    pbind (pExpressionF rec s1) fun cond s2 =>
      pbind (pMatchWithErr .RPAREN "Expected a ')' after while condition." s2)
        fun _ s3 =>
          match rec.statement { s3 with loopDepth := s3.loopDepth + 1 } with
          | none => none
          | some (body, s4) =>
            some (.ok (.whileS cond body), { s4 with loopDepth := s4.loopDepth - 1 })

/-- The condition/increment/body tail of the C-style for. -/
def pForRestF (rec : PFuncs) (init : Option Expr) (s : PSt) : PRes Stmt :=
  let condRes : PRes (Option Expr) :=
    if ¬ isNextType s .SEMICOLON then
      pbind (pExpressionF rec s) fun c sc => some (.ok (some c), sc)
    else some (.ok none, s)
  pbind condRes fun cond s1 =>
    pbind (pMatchWithErr .SEMICOLON "Expected a ';' after for-loop condition." s1)
      fun _ s2 =>
        let incrRes : PRes (Option Expr) :=
          if ¬ isNextType s2 .RPAREN then
            pbind (pExpressionF rec s2) fun i si => some (.ok (some i), si)
          else some (.ok none, s2)
        pbind incrRes fun incr s3 =>
          pbind (pMatchWithErr .RPAREN "Expected a ')' after for-loop clauses." s3)
            fun _ s4 =>
              match rec.statement { s4 with loopDepth := s4.loopDepth + 1 } with
              | none => none
              | some (body, s5) =>
                let cond2 : Expr :=
                  match cond with
                  | none => .lit (litValue ⟨.TRUE, "true", 0, .TR⟩) ⟨.TRUE, "true", 0, .TR⟩
                  | some c => c
                some (.ok (.forS init cond2 incr body),
                  { s5 with loopDepth := s5.loopDepth - 1 })

/-- `Parser::forstmt`: the C-style and ranged forms; a missing
condition defaults to a true literal on line 0. -/
def pForstmtF (rec : PFuncs) (s : PSt) : PRes Stmt :=
  pbind (pMatchWithErr .LPAREN "Expected a '(' after 'for'." s) fun _ s1 =>
    let (mSemi, s2) := pmatch [.SEMICOLON] s1
    if mSemi then pForRestF rec none s2
    else
      pbind (pExpressionF rec s2) fun init s3 =>
        match init with
        | .inE n k it =>
          pbind (pMatchWithErr .RPAREN
              "Expected a ')' after the ranged for loop clause." s3) fun _ s4 =>
            match rec.statement { s4 with loopDepth := s4.loopDepth + 1 } with
            | none => none
            | some (body, s5) =>
              some (.ok (.rangedFor (.inE n k it) body),
                { s5 with loopDepth := s5.loopDepth - 1 })
        | _ =>
          pbind (pMatchWithErr .SEMICOLON
              "Expected a ';' after for-loop initialization clause." s3) fun _ s4 =>
            pForRestF rec (some init) s4

/-- `Parser::breakstmt`: outside a loop the error is reported but the
statement still parses. -/
def pBreakstmtF (s : PSt) : PRes Stmt :=
  let s0 := if s.loopDepth = 0 then pReport s else s
  pbind (pMatchWithErr .SEMICOLON "Expected a ';' after 'break'." s0) fun _ s1 =>
    some (.ok .brk, s1)

/-- `Parser::contstmt`. -/
def pContstmtF (s : PSt) : PRes Stmt :=
  let s0 := if s.loopDepth = 0 then pReport s else s
  pbind (pMatchWithErr .SEMICOLON "Expected a ';' after 'continue'." s0) fun _ s1 =>
    some (.ok .cont, s1)

/-- `Parser::exprstmt`: in REPL mode a trailing expression without `;`
sets `m_foundExpr`. -/
def pExprstmtF (rec : PFuncs) (s : PSt) : PRes Stmt :=
  pbind (pExpressionF rec s) fun e s1 =>
    if s1.allowExpr && isAtEnd s1 then
      some (.ok (.expression e), { s1 with foundExpr := true })
    else
      pbind (pMatchWithErr .SEMICOLON
          "Invalid Syntax. Did you miss a ';' after the expression?" s1) fun _ s2 =>
        some (.ok (.expression e), s2)

/-- `Parser::fndefn` (the `fn` keyword is already consumed). -/
def pFndefnF (rec : PFuncs) (s : PSt) : PRes Stmt :=
  pbind (pMatchWithErr .IDENTIFIER "A function name was expected." s) fun _ s1 =>
    let name := previous s1
    pbind (pMatchWithErr .LPAREN
        "Expected a '(' after function name in definition." s1) fun _ s2 =>
      let paramsRes : PRes (List Token) :=
        if isNextType s2 .RPAREN then some (.ok [], s2)
        else pParamsF rec s2 "Cannot have more than 127 parameters in a function." []
      pbind paramsRes fun params s3 =>
        pbind (pMatchWithErr .RPAREN "Expected a ')' after function parameters." s3)
          fun _ s4 =>
            pbind (pMatchWithErr .LBRACE "Expected a '\x7b' before function body." s4)
              fun _ s5 =>
                pbind (pBlockF rec s5) fun body s6 =>
                  some (.ok (.func name params body), s6)

/-- `Parser::returnstmt` (the `return` keyword is already consumed). -/
def pReturnstmtF (rec : PFuncs) (s : PSt) : PRes Stmt :=
  let keyword := previous s
  let valRes : PRes (Option Expr) :=
    if ¬ isNextType s .SEMICOLON then
      pbind (pExpressionF rec s) fun v sv => some (.ok (some v), sv)
    else some (.ok none, s)
  pbind valRes fun val s1 =>
    pbind (pMatchWithErr .SEMICOLON "Expected a ';' after return value." s1)
      fun _ s2 => some (.ok (.ret keyword val), s2)

/-- The body of `Parser::statement` before the catch. -/
def pStatementCoreF (rec : PFuncs) (s : PSt) : PRes Stmt :=
  let (mRet, s1) := pmatch [.RETURN] s
  if mRet then pReturnstmtF rec s1
  else if isNextType s1 .FUNCTION && isNextNextType s1 .IDENTIFIER then
    pFndefnF rec (padvanceState s1)
  else
    let (mLB, s2) := pmatch [.LBRACE] s1
    if mLB then
      pbind (pBlockF rec s2) fun stmts s3 => some (.ok (.block stmts), s3)
    else
      let (mIf, s3) := pmatch [.IF] s2
      if mIf then pIfstmtF rec s3
      else
        let (mWh, s4) := pmatch [.WHILE] s3
        if mWh then pWhilestmtF rec s4
        else
          let (mFor, s5) := pmatch [.FOR] s4
          if mFor then pForstmtF rec s5
          else
            let (mBrk, s6) := pmatch [.BREAK] s5
            if mBrk then pBreakstmtF s6
            else
              let (mCont, s7) := pmatch [.CONTINUE] s6
              if mCont then pContstmtF s7
              else pExprstmtF rec s7

/-- `Parser::statement`: the dispatch inside the try; a `ParseError`
is caught, `sync` runs, and a null statement is returned. -/
def pStatementF (rec : PFuncs) (s : PSt) : Option (Option Stmt × PSt) :=
  match pStatementCoreF rec s with
  | none => none
  | some (.ok st, s') => some (some st, s')
  | some (.error _, s') =>
    match pSyncF rec s' with
    | none => none
    | some s2 => some (none, s2)

/-- The parser with no fuel left: every routine is undefined. -/
def parserNone : PFuncs :=
  { expression := fun _ => none
    assignment := fun _ => none
    unaryFn := fun _ => none
    exponentFn := fun _ => none
    lorLoop := fun _ _ => none
    landLoop := fun _ _ => none
    eqLoop := fun _ _ => none
    compLoop := fun _ _ => none
    addLoop := fun _ _ => none
    prodLoop := fun _ _ => none
    callIndexLoop := fun _ _ => none
    callArgs := fun _ _ => none
    paramsFn := fun _ _ _ => none
    listElems := fun _ _ => none
    statement := fun _ => none
    blockLoop := fun _ _ => none
    syncLoop := fun _ => none }

/-- One fuel level of the parser: each recursive entry point, closed
over the next-lower level. -/
def parseStep (rec : PFuncs) : PFuncs :=
  { expression := pExpressionF rec
    assignment := pAssignmentF rec
    unaryFn := pUnaryF rec
    exponentFn := pExponentiationF rec
    lorLoop := pLorLoopF rec
    landLoop := pLandLoopF rec
    eqLoop := pEqualityLoopF rec
    compLoop := pComparisionLoopF rec
    addLoop := pAdditionLoopF rec
    prodLoop := pProductLoopF rec
    callIndexLoop := pCallIndexLoopF rec
    callArgs := pCallArgsF rec
    paramsFn := pParamsF rec
    listElems := pListElemsF rec
    statement := pStatementF rec
    blockLoop := pBlockLoopF rec
    syncLoop := pSyncLoopF rec }

/-- The parser at a given fuel (recursion depth budget). -/
def parserAt : Nat → PFuncs
  | 0 => parserNone
  | f + 1 => parseStep (parserAt f)

/-- `Parser::assignment` at fuel `f`. -/
def pAssignment (f : Nat) : PSt → PRes Expr := (parserAt f).assignment

/-- `Parser::expression` at fuel `f`. -/
def pExpression (f : Nat) : PSt → PRes Expr := (parserAt f).expression

/-- `Parser::statement` at fuel `f`. -/
def pStatement (f : Nat) : PSt → Option (Option Stmt × PSt) := (parserAt f).statement

/-- `Parser::parse`: statements until EOF; in REPL mode a found
trailing expression is returned instead (as the C++ casts the last
statement back to its expression). -/
def pParseLoop : Nat → PSt → List (Option Stmt) →
    Option ((List (Option Stmt) ⊕ Expr) × PSt)
  | 0, _, _ => none
  | f + 1, s, acc =>
    if ¬ isAtEnd s then
      match pStatement (f + 1) s with
      | none => none
      | some (ost, s') =>
        if s'.foundExpr then
          match ost with
          | some (.expression e) => some (.inr e, s')
          | _ => none
        else pParseLoop f { s' with allowExpr := false } (acc ++ [ost])
    else some (.inl acc, s)

/-! ### Specification-side descriptions used by the claims -/

/-- The claim's description of the produced range list: the k-th element
is `a + k·s`, every element is at most `b` (inclusive upper bound), and
the progression is maximal — the next value would exceed `b`. -/
def IsRangeList (a s b : ℚ) (l : List ℚ) : Prop :=
  (∀ k (hk : k < l.length), l.get ⟨k, hk⟩ = a + k * s ∧ a + k * s ≤ b) ∧
  b < a + l.length * s

/-- The operand/step validation of the range expression, stated from the
claim: all three descriptors numbers, the step defaulting to 1 when
omitted and not epsilon-zero. -/
def rangeArgsOf (va : Value) (vs : Option Value) (vb : Value) : Option (ℚ × ℚ × ℚ) :=
  match va, vb with
  | .num a, .num b =>
    match vs with
    | none => some (a, 1, b)
    | some (.num s) => if qEqual s 0 then none else some (a, s, b)
    | some _ => none
  | _, _ => none

/-- A valid 1-based index into a list of length `len`, as the claims
state it: epsilon-close to an integer, strictly positive after rounding,
at most the length. -/
def ValidIdx (len : Nat) (q : ℚ) : Prop :=
  qabs (q - (lround q : ℚ)) < eps ∧ 0 < lround q ∧ lround q ≤ (len : ℤ)

/-- The `[` token of the index operator, as used by the concrete inputs
below. -/
def tokLB : Token := ⟨.LSQRBRKT, "[", 1, .NONE⟩

/-- The strict-assign token, as used by the concrete inputs below. -/
def tokBtEq : Token := ⟨.BT_EQUAL, "`=", 1, .NONE⟩

def tokTrue : Token := ⟨.TRUE, "true", 1, .TR⟩

def tokDiv : Token := ⟨.DIVISON, "/", 1, .NONE⟩

def tokEq : Token := ⟨.EQUAL, "=", 2, .NONE⟩

def tokX : Token := ⟨.IDENTIFIER, "x", 2, .NONE⟩

def tokNum (s : String) : Token := ⟨.NUMBER, s, 1, .NUM⟩

/-- The program `while (true) { break; }`: a while loop whose block body
exits via break. -/
def progWhileBreak : List (Option Stmt) :=
  [some (.whileS (.lit (.bool true) tokTrue) (some (.block [some .brk])))]

/-- The statement `1/0;`: its evaluation raises the divide-by-zero
runtime error. -/
def errStmt : Stmt :=
  .expression (.binary (.lit (.num 1) (tokNum "1")) tokDiv (.lit (.num 0) (tokNum "0")))

/-- The statement `x = 5;`: a lazy global assignment, observable in the
final global environment. -/
def asgnStmt : Stmt :=
  .expression (.assign tokX tokEq (.lit (.num 5) (tokNum "5")))

/-- The program `{ { 1/0; } x = 5; }`: one top-level statement whose
nested block raises a runtime error, followed (inside the same top-level
statement) by an observable assignment. -/
def progNestedErr : List (Option Stmt) :=
  [some (.block [some (.block [some errStmt]), some asgnStmt])]

/-- The program `1/0; x = 5;`: a top-level runtime error followed by a
second top-level statement. -/
def progTopErr : List (Option Stmt) := [some errStmt, some asgnStmt]

/-- The compound-assignment desugaring as the spec words it: `a op= e`
becomes the strict assignment `` a `= (a op e) `` — an `Assign` node
with a fabricated `BT_EQUAL` token whose value is the `Binary` node
`a op e` (the parentheses in the spec's notation denote grouping, not a
`ParenGroup` node); the fabricated tokens sit on the compound
operator's line. -/
def desugarCompound (name : Token) (opEq : Token) (e : Expr) : Expr :=
  let binTok : Token :=
    match opEq.type with
    | .PLUS_EQUAL => ⟨.PLUS, "+", opEq.line, .NONE⟩
    | .MINUS_EQUAL => ⟨.MINUS, "-", opEq.line, .NONE⟩
    | .PROD_EQUAL => ⟨.PRODUCT, "*", opEq.line, .NONE⟩
    | _ => ⟨.DIVISON, "/", opEq.line, .NONE⟩
  .assign name ⟨.BT_EQUAL, "`=", opEq.line, .NONE⟩ (.binary (.variable_ name) binTok e)

end Protonium

/-! ## Theorems -/

namespace Protonium

/-- C1: after `while (true) { break; }` the current environment is NOT
restored: `executeBlock` lets `BreakThrow` escape without resetting
`m_env`, the while loop's break handler does not reset it either, so the
interpreter ends with the block's child environment (frame 1, with the
heap grown to two frames) as current instead of the global environment
(frame 0) that was current when the loop began. -/
theorem c1_while_break_env_leak :
    (initSt []).envIdx = 0 ∧
    (interpret noLocals 20 progWhileBreak (initSt [])).map St.envIdx = some 1 ∧
    (interpret noLocals 20 progWhileBreak (initSt [])).map
      (fun st => st.frames.length) = some 2 :=
  ⟨rfl, by with_unfolding_all rfl, by with_unfolding_all rfl⟩

/-- C2 counterexample: in `{ { 1/0; } x = 5; }` the runtime error raised
inside the nested block is swallowed by that block's `executeBlock`
handler, and the remainder of the same top-level statement IS executed —
the final global environment binds x to 5 (the claim says the remainder
is not executed); and in `1/0; x = 5;` the error reaching `interpret`
aborts the whole loop, so the NEXT top-level statement never runs — x
stays unbound (the claim says evaluation resumes at the next top-level
statement).  In both runs the error is reported exactly once. -/
theorem c2_counterexample :
    ((interpret noLocals 20 progNestedErr (initSt [])).bind
      (fun st => globalVal st "x")).bind vnum = some 5 ∧
    (interpret noLocals 20 progNestedErr (initSt [])).map St.reports = some 1 ∧
    (interpret noLocals 20 progTopErr (initSt [])).map
      (fun st => (globalVal st "x").isSome) = some false ∧
    (interpret noLocals 20 progTopErr (initSt [])).map St.reports = some 1 :=
  ⟨by with_unfolding_all rfl, by with_unfolding_all rfl,
   by with_unfolding_all rfl, by with_unfolding_all rfl⟩

/-- C2 (amended): a runtime error propagates only to the nearest
enclosing block, where `executeBlock` catches it, reports it once,
restores the environment and completes the block NORMALLY — execution
resumes right after that block, inside the same top-level statement
(first conjunct); a runtime error with no enclosing block reaches
`interpret`, is reported once, and all remaining top-level statements
are skipped (second conjunct); while a statement that completes normally
lets `interpret` continue with the rest (third conjunct). -/
theorem c2_error_propagation (L : Locals) (f : Nat) :
    (∀ stmts env st st' e,
      execStmts L f stmts { st with envIdx := env } = some (.rerr e, st') →
      executeBlock L (f + 1) stmts env st =
        some (.normal, { st' with envIdx := st.envIdx, reports := st'.reports + 1 })) ∧
    (∀ s rest st st' e,
      execOptStmt L f s st = some (.rerr e, st') →
      interpret L (f + 1) (s :: rest) st = some { st' with reports := st'.reports + 1 }) ∧
    (∀ s rest st st',
      execOptStmt L f s st = some (.normal, st') →
      interpret L (f + 1) (s :: rest) st = interpret L f rest st') := by
  refine ⟨?_, ?_, ?_⟩
  · intro stmts env st st' e h
    simp [executeBlock, h]
  · intro s rest st st' e h
    simp [interpret, execStmts, h]
  · intro s rest st st' h
    simp [interpret, execStmts, h]

/-- C2 witness: the divide-by-zero statement at the top level, followed
by another statement: one report, via the amended theorem. -/
theorem c2_error_propagation_witness :
    (interpret noLocals 10 (some errStmt :: [some asgnStmt]) (initSt [])).map
      St.reports = some 1 := by
  have h := (c2_error_propagation noLocals 9).2.1 (some errStmt) [some asgnStmt]
    (initSt []) { initSt [] with mVal := .num 0 } ⟨tokDiv, "Cannot divide by 0!"⟩
    (by with_unfolding_all rfl)
  rw [h]
  rfl

/-- C3: at the failing input `x = [1]; x[1] \`= 2` — a valid scalar index
into a one-element numeric list, new value of the list's own element
type — the scalar index-assign type check reads `list->m_list[1]` (the
second element), which is out of bounds for a one-element list, so the
embedded evaluator has no defined result instead of the claimed
success. -/
theorem c3_indexAssign_scalar_second_element_oob :
    indexAssignRun [⟨[.num 1], .num⟩] (.list 0) (.num 1) (.num 2) tokLB tokBtEq = none := by
  with_unfolding_all rfl

/-- C4: at the failing input `x = ["a","b"]; x[[1]] \`= ["c"]` the
list-of-indices assignment compares the right-hand list's type tag with
the INDEX list's tag (`numList`) rather than with the target list's tag:
the homogeneous string update is rejected with a type-mismatch error
(first conjunct), while `x[[1]] \`= [5]` passes the same check and
plants a number into the string-tagged list, breaking the homogeneity
invariant (second conjunct). -/
theorem c4_indexAssign_gather_checks_index_type :
    (indexAssignRun [⟨[.str "a", .str "b"], .str⟩, ⟨[.num 1], .num⟩, ⟨[.str "c"], .str⟩]
        (.list 0) (.list 1) (.list 2) tokLB tokBtEq =
      some (.error ⟨tokBtEq, "Type mismatch for list assignment."⟩)) ∧
    (indexAssignRun [⟨[.str "a", .str "b"], .str⟩, ⟨[.num 1], .num⟩, ⟨[.num 5], .num⟩]
        (.list 0) (.list 1) (.list 2) tokLB tokBtEq =
      some (.ok [⟨[.num 5, .str "b"], .str⟩, ⟨[.num 1], .num⟩, ⟨[.num 5], .num⟩])) :=
  ⟨by with_unfolding_all rfl, by with_unfolding_all rfl⟩

/-- Once the running value is at most the bound, a negative unit step
keeps it there, so the range loop guard never fails. -/
theorem buildRange_negOne_none (f : Nat) : ∀ i : ℚ, i ≤ 0 → buildRange f i (-1) 0 = none := by
  induction f with
  | zero =>
    intro i hi
    simp [buildRange, hi]
  | succ f ih =>
    intro i hi
    have h2 : i + (-1) ≤ 0 := by linarith
    simp [buildRange, hi, ih (i + (-1)) h2]

/-- C6: the list-building loop of the range evaluator does not terminate
when the step is negative and the start does not exceed the bound: with
a = 0, s = -1, b = 0 the guard `i ≤ b` holds forever, so no amount of
fuel completes the loop. -/
theorem c6_buildRange_diverges (fuel : Nat) : buildRange fuel 0 (-1) 0 = none :=
  buildRange_negOne_none fuel 0 le_rfl

/-- Any list the range-building loop completes is the inclusive
arithmetic progression of the spec. -/
theorem buildRange_sound (f : Nat) :
    ∀ (i s e : ℚ) (l : List ℚ), buildRange f i s e = some l → IsRangeList i s e l := by
  induction f with
  | zero =>
    intro i s e l h
    by_cases hc : i ≤ e
    · simp [buildRange, hc] at h
    · simp [buildRange, hc] at h
      subst h
      exact ⟨by simp, by simpa using not_le.mp hc⟩
  | succ f ih =>
    intro i s e l h
    by_cases hc : i ≤ e
    · simp [buildRange, hc, Option.map_eq_some'] at h
      obtain ⟨l', hl', rfl⟩ := h
      obtain ⟨h1, h2⟩ := ih (i + s) s e l' hl'
      constructor
      · intro k hk
        match k with
        | 0 => simpa using hc
        | k + 1 =>
          obtain ⟨e1, e2⟩ := h1 k (by simpa using hk)
          refine ⟨?_, ?_⟩
          · simp only [List.get, e1]
            push_cast
            ring
          · have h3 : i + s + k * s = i + (k + 1 : ℚ) * s := by ring
            rw [h3] at e2
            simpa using e2
      · simp only [List.length_cons]
        have h3 : i + s + l'.length * s = i + ((l'.length : ℚ) + 1) * s := by ring
        rw [h3] at h2
        simpa [add_mul] using h2
    · simp [buildRange, hc] at h
      subst h
      exact ⟨by simp, by simpa using not_le.mp hc⟩

/-- C5: the range expression on already-evaluated operand values: when a
descriptor is not a number or the step is epsilon-zero, a runtime error
is raised; otherwise no error is possible and any list the evaluation
produces is exactly the inclusive arithmetic progression from `a` by `s`
(defaulted to 1 when omitted) while `≤ b`; in particular, whenever
`b < a` — as with a negative step and `b < a` — the produced list is the
empty numeric list. -/
theorem c5_rangeRun_spec (fuel : Nat) (va vb : Value) (vs : Option Value) (op : Token) :
    (rangeArgsOf va vs vb = none → ∃ e, rangeRun fuel va vs vb op = some (.error e)) ∧
    (∀ a s b, rangeArgsOf va vs vb = some (a, s, b) →
      (∀ e, rangeRun fuel va vs vb op ≠ some (.error e)) ∧
      (∀ L, rangeRun fuel va vs vb op = some (.ok L) →
        ∃ l, L = ⟨l.map Value.num, .num⟩ ∧ IsRangeList a s b l) ∧
      (b < a → rangeRun fuel va vs vb op = some (.ok ⟨[], .num⟩))) := by
  constructor
  · intro hbad
    rcases va with _ | c | a | c | c | c
    case num =>
      rcases vb with _ | c | b | c | c | c
      case num =>
        rcases vs with _ | v
        · simp [rangeArgsOf] at hbad
        · rcases v with _ | c | s | c | c | c
          case num =>
            simp [rangeArgsOf] at hbad
            exact ⟨⟨op, "Range step cannot be 0."⟩,
              by simp [rangeRun, rangeStep, isNum, vnum, hbad]⟩
          all_goals exact ⟨⟨op, "Ranges can only contain numeric descriptors."⟩,
            by simp [rangeRun, rangeStep, isNum, vnum]⟩
      all_goals {
        rcases vs with _ | v
        · exact ⟨⟨op, "Ranges can only contain numeric descriptors."⟩,
            by simp [rangeRun, rangeStep, isNum, vnum]⟩
        · rcases v with _ | c2 | s | c2 | c2 | c2
          case num =>
            by_cases hz : qEqual s 0 = true
            · exact ⟨⟨op, "Range step cannot be 0."⟩,
                by simp [rangeRun, rangeStep, isNum, vnum, hz]⟩
            · exact ⟨⟨op, "Ranges can only contain numeric descriptors."⟩,
                by simp [rangeRun, rangeStep, isNum, vnum, hz]⟩
          all_goals exact ⟨⟨op, "Ranges can only contain numeric descriptors."⟩,
            by simp [rangeRun, rangeStep, isNum, vnum]⟩
      }
    all_goals exact ⟨⟨op, "Ranges can only contain numeric descriptors."⟩,
      by simp [rangeRun, isNum]⟩
  · intro a s b hgood
    have hrun : rangeRun fuel va vs vb op =
        match buildRange fuel a s b with
        | none => none
        | some l => some (.ok ⟨l.map Value.num, Tag.num⟩) := by
      cases va <;> simp [rangeArgsOf] at hgood
      cases vb <;> simp at hgood
      rcases vs with _ | v
      · simp at hgood
        obtain ⟨rfl, rfl, rfl⟩ := hgood
        simp [rangeRun, rangeStep, isNum, vnum]
      · rcases v with _ | c | s' | c | c | c <;> simp at hgood
        by_cases hz : qEqual s' 0 = true
        · simp [hz] at hgood
        · simp [hz] at hgood
          obtain ⟨rfl, rfl, rfl⟩ := hgood
          simp [rangeRun, rangeStep, isNum, vnum, hz]
    refine ⟨?_, ?_, ?_⟩
    · intro e he
      rw [hrun] at he
      cases hb : buildRange fuel a s b <;> simp [hb] at he
    · intro L hL
      rw [hrun] at hL
      cases hb : buildRange fuel a s b with
      | none => simp [hb] at hL
      | some l =>
        simp [hb] at hL
        exact ⟨l, hL ▸ rfl, buildRange_sound fuel a s b l hb⟩
    · intro hba
      have hempty : buildRange fuel a s b = some [] := by
        cases fuel <;> simp [buildRange, not_le.mpr hba]
      rw [hrun, hempty]
      rfl

/-- C5 witness: `1..2..9` produces a maximal inclusive progression
(spec scenario 5), and `1..(-1)..0` produces the empty numeric list. -/
theorem c5_rangeRun_spec_witness :
    (∃ l, (⟨[Value.num 1, Value.num 3, Value.num 5, Value.num 7, Value.num 9],
        Tag.num⟩ : ListVal) = ⟨l.map Value.num, .num⟩ ∧ IsRangeList 1 2 9 l) ∧
    rangeRun 7 (.num 1) (some (.num (-1))) (.num 0) eofTok = some (.ok ⟨[], .num⟩) :=
  ⟨((c5_rangeRun_spec 7 (.num 1) (.num 9) (some (.num 2)) eofTok).2 1 2 9
      (by with_unfolding_all rfl)).2.1 _ (by with_unfolding_all rfl),
   ((c5_rangeRun_spec 7 (.num 1) (.num 0) (some (.num (-1))) eofTok).2 1 (-1) 0
      (by with_unfolding_all rfl)).2.2 (by norm_num)⟩

/-- The per-element index validation accepts a list of valid indices. -/
theorem verifyLoop_ok (len : Nat) (iop : Token) :
    ∀ elems : List Value, (∀ v ∈ elems, ∃ q, v = .num q ∧ ValidIdx len q) →
    verifyLoop len iop elems = some (.ok ()) := by
  intro elems
  induction elems with
  | nil => intro _; simp [verifyLoop]
  | cons a rest ih =>
    intro hall
    obtain ⟨q, rfl, h1, h2, h3⟩ := hall a (by simp)
    simp [verifyLoop, vnum, h1, not_le.mpr h2, not_lt.mpr h3,
      ih (fun v hv => hall v (by simp [hv]))]

/-- The per-element index validation rejects a list of numbers one of
which is not a valid index. -/
theorem verifyLoop_err (len : Nat) (iop : Token) :
    ∀ elems : List Value, (∀ v ∈ elems, ∃ q, v = .num q) →
    (∃ v ∈ elems, ∃ q, v = .num q ∧ ¬ ValidIdx len q) →
    ∃ e, verifyLoop len iop elems = some (.error e) := by
  intro elems
  induction elems with
  | nil =>
    intro _ hbad
    simp at hbad
  | cons a rest ih =>
    intro hall hbad
    obtain ⟨qa, rfl⟩ := hall a (by simp)
    by_cases h1 : qabs (qa - (lround qa : ℚ)) < eps
    · by_cases h2 : lround qa ≤ 0
      · exact ⟨⟨iop, "Indices can't be negative or zero."⟩,
          by simp [verifyLoop, vnum, h1, h2]⟩
      · by_cases h3 : (len : ℤ) < lround qa
        · exact ⟨⟨iop, "One or more of the indices is greater than the length of the list."⟩,
            by simp [verifyLoop, vnum, h1, h2, h3]⟩
        · have hv : ValidIdx len qa := ⟨h1, lt_of_not_le h2, not_lt.mp h3⟩
          have hrest : ∃ v ∈ rest, ∃ q, v = .num q ∧ ¬ ValidIdx len q := by
            obtain ⟨v, hvmem, q, hvq, hnq⟩ := hbad
            rcases List.mem_cons.mp hvmem with rfl | hmem
            · cases hvq
              exact absurd hv hnq
            · exact ⟨v, hmem, q, hvq, hnq⟩
          obtain ⟨e, he⟩ := ih (fun v hv' => hall v (by simp [hv'])) hrest
          exact ⟨e, by simp [verifyLoop, vnum, h1, h2, h3, he]⟩
    · exact ⟨⟨iop, "Indices must be positive, non-zero integers."⟩,
        by simp [verifyLoop, vnum, h1]⟩

/-- On valid indices the gather loop succeeds and yields, in index-list
order, exactly the elements of the source list at the rounded 1-based
positions. -/
theorem gatherLoop_sound (L : ListVal) :
    ∀ idxs : List Value, (∀ v ∈ idxs, ∃ q, v = .num q ∧ ValidIdx L.elems.length q) →
    ∃ g, gatherLoop L idxs = some g ∧ g.length = idxs.length ∧
      ∀ k (hk : k < idxs.length) q, idxs.get ⟨k, hk⟩ = .num q →
        g.get? k = L.elems.get? ((lround q).toNat - 1) := by
  intro idxs
  induction idxs with
  | nil =>
    intro _
    exact ⟨[], by simp [gatherLoop], by simp, by simp⟩
  | cons a rest ih =>
    intro hall
    obtain ⟨q, rfl, h1, h2, h3⟩ := hall a (by simp)
    obtain ⟨g', hg', hlen', hchar'⟩ := ih (fun v hv => hall v (by simp [hv]))
    have hto : (lround q - 1).toNat = (lround q).toNat - 1 := by omega
    have hnn : ¬ (lround q - 1 < 0) := by omega
    have hlt : (lround q).toNat - 1 < L.elems.length := by omega
    have hv : L.elems.get? ((lround q).toNat - 1) =
        some (L.elems.get ⟨(lround q).toNat - 1, hlt⟩) := List.get?_eq_get hlt
    have hv2 : L.elems[(lround q).toNat - 1]? =
        some (L.elems.get ⟨(lround q).toNat - 1, hlt⟩) := by
      rw [← List.get?_eq_getElem?]
      exact hv
    refine ⟨L.elems.get ⟨(lround q).toNat - 1, hlt⟩ :: g',
      by simp [gatherLoop, vnum, getAtInt, hnn, hto, hv2, hg'], by simp [hlen'], ?_⟩
    intro k hk q' hq'
    match k with
    | 0 =>
      simp at hq'
      subst hq'
      simp [hv]
    | k + 1 =>
      simp only [List.get] at hq' ⊢
      simpa using hchar' k (by simpa using hk) q' hq'

/-- C7: indexing a list: a valid scalar index returns the 1-based
element; a list of valid indices returns a fresh gather tagged with the
source list's type, with exactly the source elements at the rounded
positions in index order; an invalid scalar index, a non-list non-number
index, or an index list containing an invalid number each raise a
runtime error. -/
theorem c7_indexRun_spec (σ : Lists) (r : Nat) (L : ListVal) (iop : Token)
    (hσ : σ.get? r = some L) :
    (∀ x v, ValidIdx L.elems.length x →
      L.elems.get? ((lround x).toNat - 1) = some v →
      indexRun σ (.list r) (.num x) iop = some (.ok (.inl v))) ∧
    (∀ ri I, σ.get? ri = some I → (I.type = .num ∨ I.type = .empty) →
      (∀ v ∈ I.elems, ∃ q, v = .num q ∧ ValidIdx L.elems.length q) →
      ∃ g, indexRun σ (.list r) (.list ri) iop = some (.ok (.inr ⟨g, L.type⟩)) ∧
        g.length = I.elems.length ∧
        ∀ k (hk : k < I.elems.length) q, I.elems.get ⟨k, hk⟩ = .num q →
          g.get? k = L.elems.get? ((lround q).toNat - 1)) ∧
    (∀ x, ¬ ValidIdx L.elems.length x →
      ∃ e, indexRun σ (.list r) (.num x) iop = some (.error e)) ∧
    (∀ idx, isList idx = false → isNum idx = false →
      ∃ e, indexRun σ (.list r) idx iop = some (.error e)) ∧
    (∀ ri I, σ.get? ri = some I → I.type = .num →
      (∀ v ∈ I.elems, ∃ q, v = .num q) →
      (∃ v ∈ I.elems, ∃ q, v = .num q ∧ ¬ ValidIdx L.elems.length q) →
      ∃ e, indexRun σ (.list r) (.list ri) iop = some (.error e)) := by
  rw [List.get?_eq_getElem?] at hσ
  refine ⟨?_, ?_, ?_, ?_, ?_⟩
  · intro x v hvx hvget
    obtain ⟨h1, h2, h3⟩ := hvx
    have hto : (lround x - 1).toNat = (lround x).toNat - 1 := by omega
    have hnn : ¬ (lround x - 1 < 0) := by omega
    rw [List.get?_eq_getElem?] at hvget
    simp [indexRun, isList, vlist, hσ, verifyIndices, isNum, vnum, h1,
      not_le.mpr h2, not_lt.mpr h3, getAtInt, hnn, hto, hvget]
  · intro ri I hI htype hall
    rw [List.get?_eq_getElem?] at hI
    obtain ⟨g, hg, hlen, hchar⟩ := gatherLoop_sound L I.elems hall
    rcases htype with htype | htype
    · have hne : I.type ≠ Tag.empty := by simp [htype]
      refine ⟨g, ?_, hlen, hchar⟩
      simp [indexRun, isList, vlist, hσ, hI, verifyIndices, hne, htype,
        verifyLoop_ok L.elems.length iop I.elems hall, hg]
    · refine ⟨g, ?_, hlen, hchar⟩
      simp [indexRun, isList, vlist, hσ, hI, verifyIndices, htype, hg]
  · intro x hnv
    by_cases h1 : qabs (x - (lround x : ℚ)) < eps
    · by_cases h2 : lround x ≤ 0
      · exact ⟨⟨iop, "Indices can't be negative or zero."⟩,
          by simp [indexRun, isList, vlist, hσ, verifyIndices, isNum, vnum, h1, h2]⟩
      · by_cases h3 : (L.elems.length : ℤ) < lround x
        · exact ⟨⟨iop, "One or more of the indices is greater than the length of the list."⟩,
            by simp [indexRun, isList, vlist, hσ, verifyIndices, isNum, vnum, h1, h2, h3]⟩
        · exact absurd ⟨h1, lt_of_not_le h2, not_lt.mp h3⟩ hnv
    · exact ⟨⟨iop, "Indices must be positive, non-zero integers."⟩,
        by simp [indexRun, isList, vlist, hσ, verifyIndices, isNum, vnum, h1]⟩
  · intro idx hnl hnn
    exact ⟨⟨iop, "The index must be a list or a number."⟩,
      by
        simp only [indexRun, verifyIndices, hnl, hnn]
        simp [isList, vlist, hσ]⟩
  · intro ri I hI htype hall hbad
    rw [List.get?_eq_getElem?] at hI
    have hne : I.type ≠ Tag.empty := by simp [htype]
    obtain ⟨e, he⟩ := verifyLoop_err L.elems.length iop I.elems hall hbad
    exact ⟨e, by simp [indexRun, isList, vlist, hσ, hI, verifyIndices, hne, htype, he]⟩

/-- C7 witness: `[10,20,30][2]` is 20, and `[10,20,30][[2,3]]` gathers
`[20,30]` with the numeric tag. -/
theorem c7_indexRun_witness :
    indexRun [⟨[.num 10, .num 20, .num 30], .num⟩, ⟨[.num 2, .num 3], .num⟩]
      (.list 0) (.num 2) tokLB = some (.ok (.inl (.num 20))) ∧
    (∃ g, indexRun [⟨[.num 10, .num 20, .num 30], .num⟩, ⟨[.num 2, .num 3], .num⟩]
        (.list 0) (.list 1) tokLB =
          some (.ok (.inr ⟨g, (⟨[Value.num 10, Value.num 20, Value.num 30],
            Tag.num⟩ : ListVal).type⟩)) ∧
      g.length = (⟨[Value.num 2, Value.num 3], Tag.num⟩ : ListVal).elems.length ∧
      ∀ k (hk : k < (⟨[Value.num 2, Value.num 3], Tag.num⟩ : ListVal).elems.length) q,
        (⟨[Value.num 2, Value.num 3], Tag.num⟩ : ListVal).elems.get ⟨k, hk⟩ = .num q →
        g.get? k = (⟨[Value.num 10, Value.num 20, Value.num 30],
          Tag.num⟩ : ListVal).elems.get? ((lround q).toNat - 1)) :=
  ⟨(c7_indexRun_spec [⟨[.num 10, .num 20, .num 30], .num⟩, ⟨[.num 2, .num 3], .num⟩]
      0 ⟨[.num 10, .num 20, .num 30], .num⟩ tokLB rfl).1 2 (.num 20)
      (by refine ⟨?_, ?_, ?_⟩ <;> with_unfolding_all decide) (by with_unfolding_all rfl),
   (c7_indexRun_spec [⟨[.num 10, .num 20, .num 30], .num⟩, ⟨[.num 2, .num 3], .num⟩]
      0 ⟨[.num 10, .num 20, .num 30], .num⟩ tokLB rfl).2.1 1
      ⟨[.num 2, .num 3], .num⟩ rfl (Or.inl rfl)
      (by
        intro v hv
        fin_cases hv
        · exact ⟨2, rfl, by refine ⟨?_, ?_, ?_⟩ <;> with_unfolding_all decide⟩
        · exact ⟨3, rfl, by refine ⟨?_, ?_, ?_⟩ <;> with_unfolding_all decide⟩)⟩

/-- C8: the numeric comparison operators: a non-number operand raises a
runtime error; on epsilon-equal operands the strict comparisons yield
false and the non-strict ones true; otherwise the usual numeric order
decides. -/
theorem c8_comparisons (eqf : Value → Value → Option Bool)
    (op : Token) (l r : Value) (a b : ℚ) :
    ((op.type = .GREATER ∨ op.type = .LESS ∨ op.type = .GT_EQUAL ∨ op.type = .LT_EQUAL) →
      ¬ (isNum l = true ∧ isNum r = true) →
      binarySwitch eqf op l r = some (.error ⟨op, "Operands must be numbers."⟩)) ∧
    (op.type = .GREATER → qEqual a b = true →
      binarySwitch eqf op (.num a) (.num b) = some (.ok (.bool false))) ∧
    (op.type = .LESS → qEqual a b = true →
      binarySwitch eqf op (.num a) (.num b) = some (.ok (.bool false))) ∧
    (op.type = .GT_EQUAL → qEqual a b = true →
      binarySwitch eqf op (.num a) (.num b) = some (.ok (.bool true))) ∧
    (op.type = .LT_EQUAL → qEqual a b = true →
      binarySwitch eqf op (.num a) (.num b) = some (.ok (.bool true))) ∧
    (op.type = .GREATER → qEqual a b = false →
      binarySwitch eqf op (.num a) (.num b) = some (.ok (.bool (decide (a > b))))) ∧
    (op.type = .LESS → qEqual a b = false →
      binarySwitch eqf op (.num a) (.num b) = some (.ok (.bool (decide (a < b))))) ∧
    (op.type = .GT_EQUAL → qEqual a b = false →
      binarySwitch eqf op (.num a) (.num b) = some (.ok (.bool (decide (a ≥ b))))) ∧
    (op.type = .LT_EQUAL → qEqual a b = false →
      binarySwitch eqf op (.num a) (.num b) = some (.ok (.bool (decide (a ≤ b))))) := by
  obtain ⟨t, lex, ln, lt⟩ := op
  refine ⟨?_, ?_, ?_, ?_, ?_, ?_, ?_, ?_, ?_⟩ <;> intro h1
  · intro h2
    rcases h1 with h | h | h | h <;> (cases h; simp [binarySwitch]; simp_all [isNum])
  all_goals (cases h1; intro h2; simp [binarySwitch, isNum, vnum, h2])
  · have hne : a ≠ b := by
      intro he
      subst he
      simp [qEqual, qabs, eps] at h2
    have hiff : a ≥ b ↔ a > b :=
      ⟨fun hge => lt_of_le_of_ne hge (Ne.symm hne), le_of_lt⟩
    simp [hiff]
  · have hne : a ≠ b := by
      intro he
      subst he
      simp [qEqual, qabs, eps] at h2
    have hiff : a ≤ b ↔ a < b := ⟨fun hge => lt_of_le_of_ne hge hne, le_of_lt⟩
    simp [hiff]

/-- C8 witness: `1 >= 1+1e-13` is true and `1 > 1+1e-13` is false
(epsilon-equal), `2 > 1` follows the numeric order, and a string operand
raises the runtime error. -/
theorem c8_comparisons_witness :
    binarySwitch (fun _ _ => none) ⟨.GT_EQUAL, ">=", 1, .NONE⟩ (.num 1)
      (.num (1 + 1/10^13)) = some (.ok (.bool true)) ∧
    binarySwitch (fun _ _ => none) ⟨.GREATER, ">", 1, .NONE⟩ (.num 1)
      (.num (1 + 1/10^13)) = some (.ok (.bool false)) ∧
    binarySwitch (fun _ _ => none) ⟨.GREATER, ">", 1, .NONE⟩ (.num 2)
      (.num 1) = some (.ok (.bool (decide ((2:ℚ) > 1)))) ∧
    binarySwitch (fun _ _ => none) ⟨.LESS, "<", 1, .NONE⟩ (.str "x")
      (.num 1) = some (.error ⟨⟨.LESS, "<", 1, .NONE⟩, "Operands must be numbers."⟩) :=
  ⟨(c8_comparisons (fun _ _ => none) ⟨.GT_EQUAL, ">=", 1, .NONE⟩ (.num 1)
      (.num (1 + 1/10^13)) 1 (1 + 1/10^13)).2.2.2.1 rfl (by with_unfolding_all rfl),
   (c8_comparisons (fun _ _ => none) ⟨.GREATER, ">", 1, .NONE⟩ (.num 1)
      (.num (1 + 1/10^13)) 1 (1 + 1/10^13)).2.1 rfl (by with_unfolding_all rfl),
   (c8_comparisons (fun _ _ => none) ⟨.GREATER, ">", 1, .NONE⟩ (.num 2)
      (.num 1) 2 1).2.2.2.2.2.1 rfl (by with_unfolding_all rfl),
   (c8_comparisons (fun _ _ => none) ⟨.LESS, "<", 1, .NONE⟩ (.str "x")
      (.num 1) 0 0).1 (Or.inr (Or.inl rfl)) (by simp [isNum])⟩

/-- C10: for any one-element list, any scalar index that passes
`verifyIndices` (it necessarily rounds to 1), and any new value, the
scalar index-assignment type check dereferences `list->m_list[1]` — an
out-of-bounds access — so the total embedding yields `none`: the check
is not well-defined on one-element lists. -/
theorem c10_indexAssign_scalar_oneElement_none
    (σ : Lists) (r : Nat) (L : ListVal) (x : ℚ) (rhs : Value) (iop op : Token)
    (hσ : σ.get? r = some L) (hlen : L.elems.length = 1)
    (hint : qabs (x - (lround x : ℚ)) < eps) (hpos : 0 < lround x)
    (hle : lround x ≤ (L.elems.length : ℤ)) :
    indexAssignRun σ (.list r) (.num x) rhs iop op = none := by
  obtain ⟨a, ha⟩ := List.length_eq_one.mp hlen
  rw [List.get?_eq_getElem?] at hσ
  have hle1 : ¬ ((1:ℤ) < lround x) := by
    rw [hlen] at hle
    exact not_lt.mpr (by exact_mod_cast hle)
  simp [indexAssignRun, isList, vlist, hσ, verifyIndices, isNum, vnum, hint,
    not_le.mpr hpos, not_lt.mpr hle, ha, hle1]

/-- C10 witness: a one-element string list, index 1, any value. -/
theorem c10_indexAssign_witness :
    indexAssignRun [⟨[.str "a"], .str⟩] (.list 0) (.num 1) (.num 7) tokLB tokBtEq = none :=
  c10_indexAssign_scalar_oneElement_none _ 0 ⟨[.str "a"], .str⟩ 1 (.num 7) tokLB tokBtEq
    (by with_unfolding_all rfl) (by with_unfolding_all rfl)
    (by norm_num [qabs, lround, qfloor, eps]) (by norm_num [lround, qfloor])
    (by norm_num [lround, qfloor])

/-- C9: whenever the parser's `assignment` entry point sees a plain
identifier followed by one of `+=`, `-=`, `*=`, `/=`, it consumes the two
tokens, parses the right-hand value recursively through `assignment`, and
returns exactly the desugared strict-assignment tree
`` name `= (name op value) `` built by `desugarCompound`: an `Assign`
node with a fabricated `BT_EQUAL` token and a `Binary` node pairing a
fresh `Variable` read of the same name with the parsed value, all
fabricated tokens on the compound operator's line. Since the result is
literally the strict-assign tree, every later phase treats the compound
form and its desugaring identically. -/
theorem c9_compound_desugars (g : Nat) (s : PSt) (name cop : Token)
    (hn : peek s = name) (hname : name.type = .IDENTIFIER)
    (hc : peekNext s = cop)
    (hcop : cop.type = .PLUS_EQUAL ∨ cop.type = .MINUS_EQUAL ∨
            cop.type = .PROD_EQUAL ∨ cop.type = .DIV_EQUAL) :
    pAssignment (g + 1) s =
      pbind (pAssignment g { s with cur := s.cur + 2 })
        (fun val s' => some (.ok (desugarCompound name cop val), s')) := by
  have hA : isAtEnd s = false := by simp [isAtEnd, hn, hname]
  have hadv : padvanceState s = { s with cur := s.cur + 1 } := by simp [padvanceState, hA]
  have hpk1 : peek { s with cur := s.cur + 1 } = cop := by simpa [peek, peekNext] using hc
  have hpr1 : previous { s with cur := s.cur + 1 } = name := by simpa [previous, peek] using hn
  have hB : isAtEnd { s with cur := s.cur + 1 } = false := by
    rcases hcop with h | h | h | h <;> simp [isAtEnd, hpk1, h]
  have hadv2 : padvanceState { s with cur := s.cur + 1 } = { s with cur := s.cur + 2 } := by
    simp [padvanceState, hB]
  have hpr2 : previous { s with cur := s.cur + 2 } = cop := by
    have h21 : s.cur + 2 - 1 = s.cur + 1 := by omega
    simpa [previous, peekNext, h21] using hc
  rcases hcop with h | h | h | h <;>
    simp [pAssignment, parserAt, parseStep, pAssignmentF, pExpressionF, pLorF, pLandF,
      pEqualityF, pComparisionF, pRangeF, pAdditionF, pProductF, pUnaryF,
      pExponentiationF, pIndexOrCallF, pPrimaryF, pCallIndexLoopF, pLorLoopF,
      pLandLoopF, pEqualityLoopF, pComparisionLoopF, pAdditionLoopF, pProductLoopF,
      pAssignTailF, pbind, pmatch, isNextType, hA, hn, hname, hadv, hpr1, hpk1, hB,
      hadv2, hpr2, h, desugarCompound]

/-- C9 witness: on the token stream of `a += 2;` the parser's assignment
entry point equals the desugaring continuation applied to the sub-parse
of the right-hand side. -/
theorem c9_compound_desugars_witness :
    pAssignment 3 ⟨[⟨.IDENTIFIER, "a", 1, .NONE⟩, ⟨.PLUS_EQUAL, "+=", 1, .NONE⟩,
        ⟨.NUMBER, "2", 1, .NUM⟩, ⟨.SEMICOLON, ";", 1, .NONE⟩, eofTok], 0, 0, 0, false, false⟩ =
      pbind (pAssignment 2 ⟨[⟨.IDENTIFIER, "a", 1, .NONE⟩, ⟨.PLUS_EQUAL, "+=", 1, .NONE⟩,
          ⟨.NUMBER, "2", 1, .NUM⟩, ⟨.SEMICOLON, ";", 1, .NONE⟩, eofTok], 2, 0, 0, false, false⟩)
        (fun val s' => some (.ok (desugarCompound ⟨.IDENTIFIER, "a", 1, .NONE⟩
          ⟨.PLUS_EQUAL, "+=", 1, .NONE⟩ val), s')) :=
  c9_compound_desugars 2 _ ⟨.IDENTIFIER, "a", 1, .NONE⟩ ⟨.PLUS_EQUAL, "+=", 1, .NONE⟩
    rfl rfl rfl (Or.inl rfl)

end Protonium
